import Mathlib

/-!
Verification development for the TT_InferenceLayer triage core.

Python text is modelled over `List Char`; Python integers are `Nat`/`Int`
(none of the treated code performs fixed-width arithmetic); floating-point
configuration values that are only compared against exact decimal
literals (the `0.8` word-boundary ratio, confidence thresholds) are
modelled as exact rationals, with the comparison spelled out in integer
arithmetic where the double-precision comparison provably coincides (for
every text length below `2 ^ 49` the double product `max_chars * 0.8`
compares to an integer exactly as the rational `4 * max_chars / 5` does).

Pydantic models are modelled as Lean structures whose fields are the
fields declared in `models/input_models.py` and `models/output_models.py`
(fields that no treated code path reads are elided and noted per
structure).  Python attribute access on a Pydantic v2 model for a name
that is not one of its declared fields raises `AttributeError`; each such
access site in the sources is modelled by an explicit `attr_*` accessor
returning `Except`/`Option`, so the interpreter's control flow is kept.
-/

namespace InferenceLayer

/-! ## Character-level helpers (Python `str` operations, ASCII range) -/

/-- Python regex `\s` / single-character `str.isspace()` on the ASCII
range: space, tab, newline, vertical tab, form feed, carriage return. -/
def pyIsSpace (c : Char) : Bool :=
  c = ' ' || c = '\t' || c = '\n' || c = '\x0b' || c = '\x0c' || c = '\r'

/-- The sentence-ending punctuation class `[.!?]` used by
`text_utils.truncate_at_sentence_boundary`. -/
def isSentEnd (c : Char) : Bool :=
  c = '.' || c = '!' || c = '?'

/-- Python `str.rfind(c)`: index of the last occurrence of `c`, `none`
when absent (Python returns `-1`; every use site compares the result
against the `-1` case explicitly). -/
def strRfind (s : List Char) (c : Char) : Option Nat :=
  match s with
  | [] => none
  | x :: xs =>
    match strRfind xs c with
    | some i => some (i + 1)
    | none => if x = c then some 0 else none

/-! ## `llm/text_utils.py` — `truncate_at_sentence_boundary`

The source runs `re.finditer(r'[.!?](?:\s|$)', truncated_segment)` and
takes the last match.  The regex engine is modelled operationally:
`matchAt` decides whether the pattern matches at one start position (and
yields the match end), `findFrom` is the leftmost-match search from a
scan position, and `finditer` is the engine's non-overlapping scan.
The auxiliary functions carry a fuel argument that makes the recursion
structural; the top-level wrappers supply enough fuel. -/

/-- Match of `[.!?](?:\s|$)` at position `p` of `seg`: the class must
match `seg[p]`; the alternation then tries `\s` on `seg[p+1]` and falls
back to `$`, which succeeds only at the very end of the string the regex
runs on (the truncated segment).  Returns the end of the match. -/
def matchAt (seg : List Char) (p : Nat) : Option Nat :=
  match seg.get? p with
  | none => none
  | some c =>
    if isSentEnd c then
      match seg.get? (p + 1) with
      | some c2 => if pyIsSpace c2 then some (p + 2) else none
      | none => some (p + 1)
    else none

/-- Leftmost-match search: scan start positions `i, i+1, ...`. -/
def findFromAux (seg : List Char) : Nat → Nat → Option (Nat × Nat)
  | 0, _ => none
  | fuel + 1, i =>
    if i < seg.length then
      match matchAt seg i with
      | some e => some (i, e)
      | none => findFromAux seg fuel (i + 1)
    else none

/-- Leftmost match of the pattern at a start position `≥ i`. -/
def findFrom (seg : List Char) (i : Nat) : Option (Nat × Nat) :=
  findFromAux seg (seg.length - i) i

/-- Non-overlapping scan: after a match, resume at the match end. -/
def finditerAux (seg : List Char) : Nat → Nat → List (Nat × Nat)
  | 0, _ => []
  | fuel + 1, i =>
    match findFrom seg i with
    | none => []
    | some (p, e) => (p, e) :: finditerAux seg fuel e

/-- `re.finditer` of the sentence-boundary pattern, as (start, end)
pairs in scan order. -/
def finditer (seg : List Char) (i : Nat) : List (Nat × Nat) :=
  finditerAux seg (seg.length + 1 - i) i

/-- `text_utils.truncate_at_sentence_boundary`, translated line by line:
keep short text unchanged; otherwise take the last regex match inside
the first `max_chars` characters, drop the single trailing whitespace
character of the match if present, and cut there; with no match, cut at
the segment's last space character when its index exceeds `0.8 *
max_chars` (modelled exactly as `4 * max_chars < 5 * last_space`),
falling back to a hard cut at `max_chars`. -/
def truncate_at_sentence_boundary (text : List Char) (max_chars : Nat) : List Char :=
  if text.length ≤ max_chars then text
  else
    let truncated_segment := text.take max_chars
    let ms := finditer truncated_segment 0
    match ms.getLast? with
    | some last =>
      let cutoff := last.2
      let cutoff :=
        match truncated_segment.get? (cutoff - 1) with
        | some c => if pyIsSpace c then cutoff - 1 else cutoff
        | none => cutoff
      text.take cutoff
    | none =>
      match strRfind truncated_segment ' ' with
      | some last_space =>
        if 4 * max_chars < 5 * last_space then text.take last_space
        else text.take max_chars
      | none => text.take max_chars

/-! ### Properties of the regex scan -/

theorem pyIsSpace_not_sentEnd {c : Char} (h : pyIsSpace c = true) :
    isSentEnd c = false := by
  unfold pyIsSpace at h
  simp only [Bool.or_eq_true, decide_eq_true_eq] at h
  rcases h with ((((rfl | rfl) | rfl) | rfl) | rfl) | rfl <;> rfl

theorem isSentEnd_not_space {c : Char} (h : isSentEnd c = true) :
    pyIsSpace c = false := by
  unfold isSentEnd at h
  simp only [Bool.or_eq_true, decide_eq_true_eq] at h
  rcases h with (rfl | rfl) | rfl <;> rfl

theorem matchAt_some_bounds {seg : List Char} {p e : Nat}
    (h : matchAt seg p = some e) :
    p < e ∧ p < seg.length ∧ e ≤ seg.length := by
  unfold matchAt at h
  cases hg : seg.get? p with
  | none => rw [hg] at h; exact absurd h (by simp)
  | some c =>
    rw [hg] at h
    have hp : p < seg.length := (List.get?_eq_some.mp hg).1
    by_cases hs : isSentEnd c
    · simp only [hs, if_true] at h
      cases hg2 : seg.get? (p + 1) with
      | none =>
        rw [hg2] at h
        have hlen : seg.length ≤ p + 1 := List.get?_eq_none.mp hg2
        simp only [Option.some.injEq] at h
        omega
      | some c2 =>
        rw [hg2] at h
        have hp2 : p + 1 < seg.length := (List.get?_eq_some.mp hg2).1
        by_cases hs2 : pyIsSpace c2
        · simp only [hs2, if_true, Option.some.injEq] at h
          omega
        · simp [hs2] at h
    · simp [hs] at h

/-- Shape of a successful match: either punctuation followed by a
whitespace character (match end one past the whitespace) or punctuation
at the very last position of the segment (match end one past it). -/
theorem matchAt_some_shape {seg : List Char} {p e : Nat}
    (h : matchAt seg p = some e) :
    ∃ c, seg.get? p = some c ∧ isSentEnd c = true ∧
      ((∃ c2, seg.get? (p + 1) = some c2 ∧ pyIsSpace c2 = true ∧ e = p + 2) ∨
       (seg.get? (p + 1) = none ∧ e = p + 1)) := by
  unfold matchAt at h
  cases hg : seg.get? p with
  | none => rw [hg] at h; exact absurd h (by simp)
  | some c =>
    rw [hg] at h
    by_cases hs : isSentEnd c
    · simp only [hs, if_true] at h
      refine ⟨c, rfl, hs, ?_⟩
      cases hg2 : seg.get? (p + 1) with
      | none =>
        rw [hg2] at h
        simp only [Option.some.injEq] at h
        exact Or.inr ⟨rfl, h.symm⟩
      | some c2 =>
        rw [hg2] at h
        by_cases hs2 : pyIsSpace c2
        · simp only [hs2, if_true, Option.some.injEq] at h
          exact Or.inl ⟨c2, rfl, hs2, h.symm⟩
        · simp [hs2] at h
    · simp [hs] at h

/-- The scan cannot skip a match: positions strictly inside a match
carry no match of their own (the only interior position holds a
whitespace character, which is not sentence-ending punctuation). -/
theorem matchAt_none_inside {seg : List Char} {p e q : Nat}
    (h : matchAt seg p = some e) (h1 : p < q) (h2 : q < e) :
    matchAt seg q = none := by
  obtain ⟨c, _, _, hshape⟩ := matchAt_some_shape h
  rcases hshape with ⟨c2, hg2, hsp2, rfl⟩ | ⟨_, rfl⟩
  · have hq : q = p + 1 := by omega
    subst hq
    unfold matchAt
    rw [hg2]
    simp [pyIsSpace_not_sentEnd hsp2]
  · omega

theorem findFromAux_some {seg : List Char} {p e : Nat} :
    ∀ {fuel i : Nat}, findFromAux seg fuel i = some (p, e) →
      i ≤ p ∧ matchAt seg p = some e ∧ ∀ q, i ≤ q → q < p → matchAt seg q = none := by
  intro fuel
  induction fuel with
  | zero => intro i h; exact absurd h (by simp [findFromAux])
  | succ n ih =>
    intro i h
    unfold findFromAux at h
    by_cases hi : i < seg.length
    · rw [if_pos hi] at h
      cases hm : matchAt seg i with
      | some e2 =>
        rw [hm] at h
        simp only [Option.some.injEq, Prod.mk.injEq] at h
        obtain ⟨rfl, rfl⟩ := h
        exact ⟨le_refl _, hm, fun q hq1 hq2 => absurd (lt_of_le_of_lt hq1 hq2) (lt_irrefl _)⟩
      | none =>
        rw [hm] at h
        obtain ⟨h1, h2, h3⟩ := ih h
        refine ⟨by omega, h2, fun q hq1 hq2 => ?_⟩
        rcases Nat.eq_or_lt_of_le hq1 with rfl | hlt
        · exact hm
        · exact h3 q hlt hq2
    · rw [if_neg hi] at h
      exact absurd h (by simp)

theorem findFromAux_none {seg : List Char} :
    ∀ {fuel i : Nat}, seg.length ≤ i + fuel → findFromAux seg fuel i = none →
      ∀ q, i ≤ q → matchAt seg q = none := by
  intro fuel
  induction fuel with
  | zero =>
    intro i hfuel _ q hq
    cases hm : matchAt seg q with
    | none => rfl
    | some e =>
      obtain ⟨_, h2, _⟩ := matchAt_some_bounds hm
      omega
  | succ n ih =>
    intro i hfuel h q hq
    unfold findFromAux at h
    by_cases hi : i < seg.length
    · rw [if_pos hi] at h
      cases hm : matchAt seg i with
      | some e2 => rw [hm] at h; exact absurd h (by simp)
      | none =>
        rw [hm] at h
        rcases Nat.eq_or_lt_of_le hq with rfl | hlt
        · exact hm
        · exact ih (by omega) h q hlt
    · cases hm : matchAt seg q with
      | none => rfl
      | some e =>
        obtain ⟨_, h2, _⟩ := matchAt_some_bounds hm
        omega

theorem findFrom_some {seg : List Char} {i p e : Nat}
    (h : findFrom seg i = some (p, e)) :
    i ≤ p ∧ matchAt seg p = some e ∧ ∀ q, i ≤ q → q < p → matchAt seg q = none :=
  findFromAux_some h

theorem findFrom_none {seg : List Char} {i : Nat}
    (h : findFrom seg i = none) :
    ∀ q, i ≤ q → matchAt seg q = none :=
  findFromAux_none (by omega) h

theorem finditerAux_nil {seg : List Char} :
    ∀ {fuel i : Nat}, seg.length + 1 ≤ i + fuel → finditerAux seg fuel i = [] →
      ∀ q, i ≤ q → matchAt seg q = none := by
  intro fuel
  cases fuel with
  | zero =>
    intro i hfuel _ q hq
    cases hm : matchAt seg q with
    | none => rfl
    | some e =>
      obtain ⟨_, h2, _⟩ := matchAt_some_bounds hm
      omega
  | succ n =>
    intro i _ h q hq
    unfold finditerAux at h
    cases hf : findFrom seg i with
    | none => exact findFrom_none hf q hq
    | some pe => rw [hf] at h; exact absurd h (by simp)

/-- The last element of the non-overlapping scan is the greatest
position carrying a match. -/
theorem finditerAux_getLast {seg : List Char} {p e : Nat} :
    ∀ {fuel i : Nat}, seg.length + 1 ≤ i + fuel →
      (finditerAux seg fuel i).getLast? = some (p, e) →
      i ≤ p ∧ matchAt seg p = some e ∧ ∀ q, p < q → matchAt seg q = none := by
  intro fuel
  induction fuel with
  | zero => intro i _ h; exact absurd h (by simp [finditerAux])
  | succ n ih =>
    intro i hfuel h
    unfold finditerAux at h
    cases hf : findFrom seg i with
    | none => rw [hf] at h; exact absurd h (by simp)
    | some pe =>
      obtain ⟨p0, e0⟩ := pe
      simp only [hf] at h
      obtain ⟨hi0, hm0, _⟩ := findFrom_some hf
      obtain ⟨hlt0, hp0len, he0len⟩ := matchAt_some_bounds hm0
      cases hrest : finditerAux seg n e0 with
      | nil =>
        rw [hrest] at h
        simp only [List.getLast?_singleton, Option.some.injEq, Prod.mk.injEq] at h
        obtain ⟨rfl, rfl⟩ := h
        have hnone := @finditerAux_nil seg n e0 (by omega) hrest
        refine ⟨hi0, hm0, fun q hq => ?_⟩
        by_cases hqe : q < e0
        · exact matchAt_none_inside hm0 hq hqe
        · exact hnone q (by omega)
      | cons y ys =>
        rw [hrest] at h
        rw [List.getLast?_cons_cons] at h
        rw [← hrest] at h
        obtain ⟨h1, h2, h3⟩ := ih (by omega) h
        exact ⟨by omega, h2, h3⟩

theorem finditer_getLast {seg : List Char} {p e : Nat}
    (h : (finditer seg 0).getLast? = some (p, e)) :
    matchAt seg p = some e ∧ ∀ q, p < q → matchAt seg q = none := by
  have := @finditerAux_getLast seg p e (seg.length + 1) 0 (by omega) h
  exact ⟨this.2.1, this.2.2⟩

theorem finditer_nil {seg : List Char}
    (h : finditer seg 0 = []) :
    ∀ q, matchAt seg q = none := by
  intro q
  exact @finditerAux_nil seg (seg.length + 1) 0 (by omega) h q (by omega)

/-! ### Declarative descriptions of the truncation behaviour

`truncateAmendedSpec` states the truncation contract as the code
actually behaves (the amended claim C6); `truncateClaimSpec` states it
as the specification paragraph words it.  Both are written from the
respective English text, independently of the regex-scan model. -/

/-- Last index of `s` whose character satisfies `P` (used to state the
claim's "last whitespace position"). -/
def rfindP (s : List Char) (P : Char → Bool) : Option Nat :=
  match s with
  | [] => none
  | x :: xs =>
    match rfindP xs P with
    | some i => some (i + 1)
    | none => if P x then some 0 else none

/-- Sentence boundary as the code recognises it on the truncated
segment: sentence-ending punctuation followed by a whitespace character,
or sentence-ending punctuation at the very last position of the
segment. -/
def isBoundaryCode (seg : List Char) (p : Nat) : Bool :=
  match seg.get? p, seg.get? (p + 1) with
  | some c, some c2 => isSentEnd c && pyIsSpace c2
  | some c, none => isSentEnd c
  | none, _ => false

/-- Greatest boundary position of the segment. -/
def lastBoundaryCode (seg : List Char) : Option Nat :=
  ((List.range seg.length).filter (isBoundaryCode seg)).getLast?

/-- The amended claim C6 as a function: short text unchanged; otherwise
cut immediately after the greatest boundary of the `max_chars`-character
segment (where a final punctuation character of the segment counts as a
boundary even when the full text continues); with no boundary, cut at
the last space character (`' '` only) of the segment provided its index
is strictly greater than `0.8 * max_chars`; otherwise hard-cut. -/
def truncateAmendedSpec (text : List Char) (max_chars : Nat) : List Char :=
  if text.length ≤ max_chars then text
  else
    match lastBoundaryCode (text.take max_chars) with
    | some p => text.take (p + 1)
    | none =>
      match strRfind (text.take max_chars) ' ' with
      | some s => if 4 * max_chars < 5 * s then text.take s else text.take max_chars
      | none => text.take max_chars

/-- Sentence boundary as claim C6 words it: sentence-ending punctuation
within the first `max_chars` characters followed by whitespace or by the
end of the (whole) string. -/
def isBoundaryClaim (text : List Char) (max_chars p : Nat) : Bool :=
  decide (p < max_chars) &&
    match text.get? p, text.get? (p + 1) with
    | some c, some c2 => isSentEnd c && pyIsSpace c2
    | some c, none => isSentEnd c
    | none, _ => false

/-- Claim C6 as a function, following its words: cut immediately after
the last boundary; when no boundary exists, cut at the last whitespace
position of the segment provided it lies at `≥ 0.8 * max_chars`;
otherwise hard-cut at `max_chars`. -/
def truncateClaimSpec (text : List Char) (max_chars : Nat) : List Char :=
  if text.length ≤ max_chars then text
  else
    match ((List.range text.length).filter (isBoundaryClaim text max_chars)).getLast? with
    | some p => text.take (p + 1)
    | none =>
      match rfindP (text.take max_chars) pyIsSpace with
      | some w => if 4 * max_chars ≤ 5 * w then text.take w else text.take max_chars
      | none => text.take max_chars

/-! ### The scan agrees with the declarative description -/

theorem isBoundaryCode_eq_isSome (seg : List Char) (p : Nat) :
    isBoundaryCode seg p = (matchAt seg p).isSome := by
  unfold isBoundaryCode matchAt
  cases hg : seg.get? p with
  | none => simp
  | some c =>
    cases hg2 : seg.get? (p + 1) with
    | none =>
      by_cases hs : isSentEnd c <;> simp [hs]
    | some c2 =>
      by_cases hs : isSentEnd c
      · by_cases hs2 : pyIsSpace c2 <;> simp [hs, hs2]
      · simp [hs]

theorem range_filter_getLast_eq {n : Nat} {P : Nat → Bool} {p : Nat}
    (hp : p < n) (hP : P p = true)
    (hmax : ∀ q, p < q → P q = false) :
    ((List.range n).filter P).getLast? = some p := by
  induction n with
  | zero => omega
  | succ m ih =>
    rw [List.range_succ, List.filter_append]
    by_cases hpm : p = m
    · subst hpm
      simp [hP]
    · have hm : P m = false := hmax m (by omega)
      simp only [List.filter_cons, hm, Bool.false_eq_true, if_false, List.filter_nil,
        List.append_nil]
      exact ih (by omega)

theorem range_filter_nil {n : Nat} {P : Nat → Bool}
    (h : ∀ q, P q = false) :
    (List.range n).filter P = [] := by
  induction n with
  | zero => rfl
  | succ m ih =>
    rw [List.range_succ, List.filter_append, ih]
    simp [h m]

/-- The cutoff computed by the source (match end, minus one when the
match ends in whitespace) is always one past the punctuation. -/
theorem cutoff_eq_succ {seg : List Char} {p e : Nat}
    (hm : matchAt seg p = some e) :
    (match seg.get? (e - 1) with
     | some c => if pyIsSpace c then e - 1 else e
     | none => e) = p + 1 := by
  obtain ⟨c, hg, hs, hshape⟩ := matchAt_some_shape hm
  rcases hshape with ⟨c2, hg2, hsp2, rfl⟩ | ⟨_, rfl⟩
  · have h21 : p + 2 - 1 = p + 1 := by omega
    rw [h21, hg2]
    simp [hsp2]
  · have h11 : p + 1 - 1 = p := by omega
    rw [h11, hg]
    simp [isSentEnd_not_space hs]

/-- `truncate_at_sentence_boundary` satisfies the amended declarative
description, on every input. -/
theorem truncate_eq_amendedSpec (text : List Char) (max_chars : Nat) :
    truncate_at_sentence_boundary text max_chars = truncateAmendedSpec text max_chars := by
  unfold truncate_at_sentence_boundary truncateAmendedSpec
  by_cases hlen : text.length ≤ max_chars
  · simp [hlen]
  · rw [if_neg hlen, if_neg hlen]
    set seg := text.take max_chars with hseg
    cases hlast : (finditer seg 0).getLast? with
    | some pe =>
      obtain ⟨p, e⟩ := pe
      obtain ⟨hm, hmax⟩ := finditer_getLast hlast
      have hbound := matchAt_some_bounds hm
      have hlb : lastBoundaryCode seg = some p := by
        unfold lastBoundaryCode
        refine range_filter_getLast_eq hbound.2.1 ?_ ?_
        · rw [isBoundaryCode_eq_isSome, hm]; rfl
        · intro q hq
          rw [isBoundaryCode_eq_isSome, hmax q hq]; rfl
      simp only [hlast, hlb]
      rw [cutoff_eq_succ hm]
    | none =>
      have hnil : finditer seg 0 = [] := by
        cases hfi : finditer seg 0 with
        | nil => rfl
        | cons y ys =>
          rw [hfi] at hlast
          simp at hlast
      have hnone := finditer_nil hnil
      have hlb : lastBoundaryCode seg = none := by
        unfold lastBoundaryCode
        rw [range_filter_nil]
        · rfl
        · intro q
          rw [isBoundaryCode_eq_isSome, hnone q]; rfl
      simp only [hlast, hlb]

/-! ## `models/input_models.py` — `PiiEntity` and
`llm/text_utils.py` — `adjust_pii_spans_after_truncation`

`PiiEntity` declares the fields below (`confidence`, a float in `[0,1]`,
is modelled as a rational; no treated code computes with it).  Note the
span is stored as the two integer fields `span_start` / `span_end`; the
model declares NO field named `span`. -/

structure PiiEntity where
  type : String
  original_hash : String
  redacted : String
  span_start : Nat
  span_end : Nat
  confidence : ℚ
  detection_method : String
deriving DecidableEq, Repr

/-- The source guard `if not hasattr(entity, 'span') or not entity.span`
performed on a `PiiEntity`: the Pydantic model declares no attribute
named `span` (its fields are `span_start` and `span_end`), so
`hasattr(entity, 'span')` is `False` for every `PiiEntity` and the
lookup yields nothing. -/
def PiiEntity.attr_span (_entity : PiiEntity) : Option (Nat × Nat) :=
  none

/-- `text_utils.adjust_pii_spans_after_truncation`, translated line by
line.  The source iterates the entities; for each it requires a `span`
attribute (skipping the entity otherwise), keeps entities with
`end <= truncated_length`, drops entities with
`start >= truncated_length`, and otherwise appends a copy whose span end
is clamped to `truncated_length` (the `model_copy` branch; unreachable
for `PiiEntity` because `attr_span` never yields a value).
`original_text` and `truncated_text` are accepted and never read, as in
the source. -/
def adjust_pii_spans_after_truncation (pii_entities : List PiiEntity)
    (truncated_length : Nat)
    (_original_text _truncated_text : List Char) : List PiiEntity :=
  if pii_entities = [] then []
  else
    pii_entities.filterMap (fun entity =>
      match entity.attr_span with
      | none => none
      | some (start, stop) =>
        if stop ≤ truncated_length then some entity
        else if truncated_length ≤ start then none
        else some { entity with span_start := start, span_end := truncated_length })

/-- Whatever the entities and the truncation point, the function returns
the empty list: no `PiiEntity` ever carries a `span` attribute. -/
theorem adjust_pii_spans_always_nil (pii_entities : List PiiEntity)
    (truncated_length : Nat) (original_text truncated_text : List Char) :
    adjust_pii_spans_after_truncation pii_entities truncated_length
      original_text truncated_text = [] := by
  unfold adjust_pii_spans_after_truncation
  by_cases h : pii_entities = []
  · simp [h]
  · rw [if_neg h, List.filterMap_eq_nil_iff]
    intro a _
    rfl

/-! ## `models/enums.py` — closed taxonomies -/

inductive TopicsEnum
  | FATTURAZIONE
  | ASSISTENZATECNICA
  | RECLAMO
  | INFOCOMMERCIALI
  | DOCUMENTI
  | APPUNTAMENTO
  | CONTRATTO
  | GARANZIA
  | SPEDIZIONE
  | UNKNOWNTOPIC
deriving DecidableEq, Repr

/-- The `str` value of a `TopicsEnum` member (a `str`-Enum member
compares equal to its value). -/
def TopicsEnum.value : TopicsEnum → String
  | .FATTURAZIONE => "FATTURAZIONE"
  | .ASSISTENZATECNICA => "ASSISTENZATECNICA"
  | .RECLAMO => "RECLAMO"
  | .INFOCOMMERCIALI => "INFOCOMMERCIALI"
  | .DOCUMENTI => "DOCUMENTI"
  | .APPUNTAMENTO => "APPUNTAMENTO"
  | .CONTRATTO => "CONTRATTO"
  | .GARANZIA => "GARANZIA"
  | .SPEDIZIONE => "SPEDIZIONE"
  | .UNKNOWNTOPIC => "UNKNOWNTOPIC"

def TopicsEnum.all : List TopicsEnum :=
  [.FATTURAZIONE, .ASSISTENZATECNICA, .RECLAMO, .INFOCOMMERCIALI, .DOCUMENTI,
   .APPUNTAMENTO, .CONTRATTO, .GARANZIA, .SPEDIZIONE, .UNKNOWNTOPIC]

inductive SentimentEnum
  | positive
  | neutral
  | negative
deriving DecidableEq, Repr

def SentimentEnum.value : SentimentEnum → String
  | .positive => "positive"
  | .neutral => "neutral"
  | .negative => "negative"

def SentimentEnum.all : List SentimentEnum := [.positive, .neutral, .negative]

inductive PriorityEnum
  | low
  | medium
  | high
  | urgent
deriving DecidableEq, Repr

def PriorityEnum.value : PriorityEnum → String
  | .low => "low"
  | .medium => "medium"
  | .high => "high"
  | .urgent => "urgent"

def PriorityEnum.all : List PriorityEnum := [.low, .medium, .high, .urgent]

/-! ## `models/output_models.py` — the LLM verdict

Field names are exactly the Pydantic field names (`candidateid`,
`labelid`, `keywordsintext`, `dictionaryversion` — all lower case, as
declared in the source).  Confidences are floats in `[0,1]`, modelled as
rationals; span integers may be negative in an LLM answer, so spans are
pairs of `Int`. -/

structure KeywordInText where
  candidateid : String
  «lemma» : List Char
  count : Nat
  spans : Option (List (Int × Int))
deriving DecidableEq, Repr

structure EvidenceItem where
  quote : List Char
  span : Option (Int × Int)
deriving DecidableEq, Repr

structure TopicResult where
  labelid : TopicsEnum
  confidence : ℚ
  keywordsintext : List KeywordInText
  evidence : List EvidenceItem
deriving DecidableEq, Repr

structure SentimentResult where
  value : SentimentEnum
  confidence : ℚ
deriving DecidableEq, Repr

structure PriorityResult where
  value : PriorityEnum
  confidence : ℚ
  signals : List String
deriving DecidableEq, Repr

structure EmailTriageResponse where
  dictionaryversion : Nat
  sentiment : SentimentResult
  priority : PriorityResult
  topics : List TopicResult
deriving DecidableEq, Repr

/-! ## `models/input_models.py` — request-side models

`EmailDocument` is modelled with the fields the treated code reads
(`uid`, `from_addr_redacted`, `subject_canonical`, `body_text_canonical`,
`pii_entities`); its remaining declared fields (mailbox, message ids,
header map, removed sections, upstream versions, timestamps, sizes) are
read by no treated code path and are elided. -/

structure EmailDocument where
  uid : String
  from_addr_redacted : String
  subject_canonical : List Char
  body_text_canonical : List Char
  pii_entities : List PiiEntity
deriving DecidableEq, Repr

structure CandidateKeyword where
  candidate_id : String
  term : List Char
  «lemma» : List Char
  count : Nat
  source : String
  score : ℚ
deriving DecidableEq, Repr

structure TriageRequest where
  email : EmailDocument
  candidate_keywords : List CandidateKeyword
  dictionary_version : Nat
deriving DecidableEq, Repr

/-! ## `validation/exceptions.py` and Python exception kinds

`ValidationError` and its subclasses carry a message and a `details`
dict whose values are strings or lists of strings; the subclass is
recorded in `className` (it is what `type(e).__name__` yields).
`Exc` is the class of exceptions a treated validation code path can
raise: a `ValidationError` (any subclass), an `AttributeError`, or any
other exception type (identified, as in the source's handlers, by its
type name). -/

inductive DetailVal
  | str (s : String)
  | strList (l : List String)
deriving DecidableEq, Repr

structure ValidationErr where
  className : String
  message : String
  details : List (String × DetailVal)
deriving DecidableEq, Repr

inductive Exc
  | validation (e : ValidationErr)
  | attributeError (objType attrName : String)
  | other (typeName : String)
deriving DecidableEq, Repr

/-- `type(e).__name__` of a modelled exception. -/
def Exc.typeName : Exc → String
  | .validation e => e.className
  | .attributeError _ _ => "AttributeError"
  | .other n => n

/-- The `BusinessRuleViolation.__init__` of `validation/exceptions.py`:
each keyword argument lands in `details` under Python truthiness /
non-None rules, `expected_values` truncated to its first 20 entries. -/
def BusinessRuleViolation (message : String) (rule_name : Option String)
    (invalid_value : Option String) (expected_values : Option (List String))
    (field_path : Option String) : ValidationErr :=
  { className := "BusinessRuleViolation"
    message := message
    details :=
      (match rule_name with
       | some s => if s = "" then [] else [("rule_name", DetailVal.str s)]
       | none => []) ++
      (match invalid_value with
       | some v => [("invalid_value", DetailVal.str v)]
       | none => []) ++
      (match expected_values with
       | some l => if l = [] then [] else [("expected_values", DetailVal.strList (l.take 20))]
       | none => []) ++
      (match field_path with
       | some s => if s = "" then [] else [("field_path", DetailVal.str s)]
       | none => []) }

/-! ### Attribute-access sites that name no declared field

Each definition below models one literal access site of the sources; the
doc comment names the site and the model's actual fields. -/

/-- `response.dictionary_version` (stage3_business_rules.py, lines
70/75/78).  `EmailTriageResponse` declares `dictionaryversion`; Pydantic
raises `AttributeError` for `dictionary_version`. -/
def EmailTriageResponse.attr_dictionary_version (_r : EmailTriageResponse) :
    Except Exc Nat :=
  .error (.attributeError "EmailTriageResponse" "dictionary_version")

/-- `keyword.candidate_id` (stage3_business_rules.py line 131,
stage4_quality.py line 121, verifiers.py line 145).  `KeywordInText`
declares `candidateid`; the access raises `AttributeError`. -/
def KeywordInText.attr_candidate_id (_k : KeywordInText) : Except Exc String :=
  .error (.attributeError "KeywordInText" "candidate_id")

/-- `request.email_document` (verifiers.py lines 42, 126, 230).
`TriageRequest` declares `email`; the access raises `AttributeError`. -/
def TriageRequest.attr_email_document (_r : TriageRequest) : Except Exc EmailDocument :=
  .error (.attributeError "TriageRequest" "email_document")

/-- `topic.label_id` (verifiers.py, several message interpolations).
`TopicResult` declares `labelid`; the access raises `AttributeError`. -/
def TopicResult.attr_label_id (_t : TopicResult) : Except Exc TopicsEnum :=
  .error (.attributeError "TopicResult" "label_id")

/-- `topic.keywords_in_text` (verifiers.py lines 144, 235).
`TopicResult` declares `keywordsintext`; the access raises
`AttributeError`. -/
def TopicResult.attr_keywords_in_text (_t : TopicResult) :
    Except Exc (List KeywordInText) :=
  .error (.attributeError "TopicResult" "keywords_in_text")

/-! ## `validation/stage3_business_rules.py` — `Stage3BusinessRules` -/

namespace Stage3BusinessRules

/-- Rule 1 (`_validate_dictionary_version`): compare
`response.dictionary_version` with `request.dictionary_version` and
raise a `BusinessRuleViolation` named `dictionary_version_match` on
mismatch.  The first read of `response.dictionary_version` goes through
the attribute accessor (the model declares `dictionaryversion`). -/
def validate_dictionary_version (response : EmailTriageResponse)
    (request : TriageRequest) : Except Exc Unit := do
  let rv ← EmailTriageResponse.attr_dictionary_version response
  if rv ≠ request.dictionary_version then
    throw (.validation (BusinessRuleViolation "Dictionary version mismatch"
      (some "dictionary_version_match") (some (toString rv))
      (some [toString request.dictionary_version]) (some "dictionaryversion")))
  else
    pure ()

/-- The sorted list `sorted(valid_topics)` of topic values. -/
def sortedTopicValues : List String :=
  ["APPUNTAMENTO", "ASSISTENZATECNICA", "CONTRATTO", "DOCUMENTI", "FATTURAZIONE",
   "GARANZIA", "INFOCOMMERCIALI", "RECLAMO", "SPEDIZIONE", "UNKNOWNTOPIC"]

/-- Rule 2 (`_validate_topic_labels`): every `topic.labelid` must lie in
the set of `TopicsEnum` values (here `labelid` IS a declared field, and
it is typed as the enum, so the membership test always succeeds). -/
def validate_topic_labels (response : EmailTriageResponse) : Except Exc Unit := do
  let valid_topics := TopicsEnum.all.map TopicsEnum.value
  for pair in response.topics.enum do
    let i := pair.1
    let topic := pair.2
    if ¬ valid_topics.contains topic.labelid.value then
      throw (.validation (BusinessRuleViolation "Topic labelid is not in TopicsEnum"
        (some "topic_label_in_enum") (some topic.labelid.value)
        (some sortedTopicValues)
        (some ("topics[" ++ toString i ++ "].labelid"))))
  pure ()

/-- Rule 3 (`_validate_candidateids`): every keyword's candidate id must
appear among the request's candidate ids.  The per-keyword read
`keyword.candidate_id` goes through the attribute accessor (the model
declares `candidateid`). -/
def validate_candidateids (response : EmailTriageResponse)
    (request : TriageRequest) : Except Exc Unit := do
  let valid_candidateids := request.candidate_keywords.map (fun c => c.candidate_id)
  for tpair in response.topics.enum do
    let topic_idx := tpair.1
    let topic := tpair.2
    for kpair in topic.keywordsintext.enum do
      let kw_idx := kpair.1
      let keyword := kpair.2
      let cid ← KeywordInText.attr_candidate_id keyword
      if ¬ valid_candidateids.contains cid then
        throw (.validation (BusinessRuleViolation
          "Keyword candidateid not found in input candidates"
          (some "candidateid_exists_in_input") (some cid) none
          (some ("topics[" ++ toString topic_idx ++ "].keywordsintext[" ++
                 toString kw_idx ++ "].candidateid"))))
  pure ()

/-- Rule 4 (`_validate_sentiment_priority`): sentiment and priority
values must be members of their enums (always true: the fields are typed
as the enums). -/
def validate_sentiment_priority (response : EmailTriageResponse) : Except Exc Unit := do
  let valid_sentiments := SentimentEnum.all.map SentimentEnum.value
  if ¬ valid_sentiments.contains response.sentiment.value.value then
    throw (.validation (BusinessRuleViolation "Sentiment value is not in SentimentEnum"
      (some "sentiment_in_enum") (some response.sentiment.value.value)
      (some ["negative", "neutral", "positive"]) (some "sentiment.value")))
  let valid_priorities := PriorityEnum.all.map PriorityEnum.value
  if ¬ valid_priorities.contains response.priority.value.value then
    throw (.validation (BusinessRuleViolation "Priority value is not in PriorityEnum"
      (some "priority_in_enum") (some response.priority.value.value)
      (some ["high", "low", "medium", "urgent"]) (some "priority.value")))
  pure ()

/-- `Stage3BusinessRules.validate`: the four rules in source order. -/
def validate (response : EmailTriageResponse) (request : TriageRequest) :
    Except Exc Unit := do
  validate_dictionary_version response request
  validate_topic_labels response
  validate_candidateids response request
  validate_sentiment_priority response

end Stage3BusinessRules

/-! ## Warnings

Stage 4 and the verifiers emit human-readable warning strings; each
emission site is modelled by one constructor carrying the data the
message interpolates. -/

inductive Warn
  | lowSentimentConfidence (confidence threshold : ℚ)
  | lowPriorityConfidence (confidence threshold : ℚ)
  | lowTopicConfidence (labelid : TopicsEnum) (index : Nat) (confidence threshold : ℚ)
  | duplicateTopic (labelid : TopicsEnum) (index : Nat)
  | duplicateKeyword (candidateid : String) (labelid : TopicsEnum) (topicIndex kwIndex : Nat)
  | duplicateEvidence (labelid : TopicsEnum) (topicIndex evIndex : Nat)
  | topicNoKeywords (labelid : TopicsEnum) (index : Nat)
  | topicNoEvidence (labelid : TopicsEnum) (index : Nat)
  | priorityNoSignals
  | longEvidenceQuote (quoteLength : Nat) (labelid : TopicsEnum) (topicIndex evIndex : Nat)
  | emptyBodyEvidence
  | evidenceQuoteNotFound (quote : List Char) (labelid : TopicsEnum) (topicIndex evIndex : Nat)
  | evidenceSpanMismatch (start stop : Int) (labelid : TopicsEnum) (topicIndex evIndex : Nat)
  | emptyBodyKeyword
  | keywordNotInCandidates (candidateid : String) (labelid : TopicsEnum) (kwIndex : Nat)
  | keywordNotFound (term lem : List Char) (candidateid : String) (labelid : TopicsEnum) (kwIndex : Nat)
  | keywordSpanOutOfBounds (start stop : Int) (term : List Char) (textLength : Nat)
  | spanFormatInvalid (start stop : Int)
  | spanStartGeEnd (start stop : Int)
  | spanStartNegative (start stop : Int)
  | spanEndPastText (start stop : Int) (textLength : Nat)
deriving DecidableEq, Repr

/-- Python `str.lower()` (ASCII). -/
def pyLower (s : List Char) : List Char := s.map Char.toLower

/-- Python `str.strip()` (ASCII whitespace). -/
def pyStrip (s : List Char) : List Char :=
  ((s.dropWhile pyIsSpace).reverse.dropWhile pyIsSpace).reverse

/-- Python substring test `a in b`: `a` occurs contiguously in `b`
(the empty string occurs in every string). -/
def pyInStr (needle haystack : List Char) : Bool :=
  needle.isPrefixOf haystack ||
    match haystack with
    | [] => false
    | _ :: rest => pyInStr needle rest

/-! ## `validation/stage4_quality.py` — `Stage4QualityChecks` -/

namespace Stage4QualityChecks

/-- `_check_low_confidence`: pure warnings (all reads name declared
fields). -/
def check_low_confidence (threshold : ℚ) (response : EmailTriageResponse) : List Warn :=
  (if response.sentiment.confidence < threshold then
    [Warn.lowSentimentConfidence response.sentiment.confidence threshold] else []) ++
  (if response.priority.confidence < threshold then
    [Warn.lowPriorityConfidence response.priority.confidence threshold] else []) ++
  response.topics.enum.flatMap (fun pair =>
    if pair.2.confidence < threshold then
      [Warn.lowTopicConfidence pair.2.labelid pair.1 pair.2.confidence threshold] else [])

/-- `_check_duplicates`: duplicate topic labels, then duplicate keyword
candidate ids per topic (the comprehension
`[kw.candidate_id for kw in topic.keywordsintext]` reads the undeclared
`candidate_id` attribute, so it raises on the first keyword), then
duplicate normalized evidence quotes per topic. -/
def check_duplicates (response : EmailTriageResponse) : Except Exc (List Warn) := do
  let mut warnings : List Warn := []
  let topic_labels := response.topics.map (fun t => t.labelid)
  let mut seen_labels : List TopicsEnum := []
  for pair in topic_labels.enum do
    if seen_labels.contains pair.2 then
      warnings := warnings ++ [Warn.duplicateTopic pair.2 pair.1]
    seen_labels := seen_labels ++ [pair.2]
  for tpair in response.topics.enum do
    let topic := tpair.2
    let candidateids ← topic.keywordsintext.mapM KeywordInText.attr_candidate_id
    let mut seen_ids : List String := []
    for kpair in candidateids.enum do
      if seen_ids.contains kpair.2 then
        warnings := warnings ++ [Warn.duplicateKeyword kpair.2 topic.labelid tpair.1 kpair.1]
      seen_ids := seen_ids ++ [kpair.2]
  for tpair in response.topics.enum do
    let topic := tpair.2
    let quotes := topic.evidence.map (fun ev => ev.quote)
    let mut seen_quotes : List (List Char) := []
    for qpair in quotes.enum do
      let normalized := pyStrip (pyLower qpair.2)
      if seen_quotes.contains normalized then
        warnings := warnings ++ [Warn.duplicateEvidence topic.labelid tpair.1 qpair.1]
      seen_quotes := seen_quotes ++ [normalized]
  pure warnings

/-- `_check_completeness`: empty keyword/evidence lists, empty priority
signals, over-long quotes.  All reads name declared fields. -/
def check_completeness (response : EmailTriageResponse) : List Warn :=
  response.topics.enum.flatMap (fun pair =>
    if pair.2.keywordsintext = [] then [Warn.topicNoKeywords pair.2.labelid pair.1] else []) ++
  response.topics.enum.flatMap (fun pair =>
    if pair.2.evidence = [] then [Warn.topicNoEvidence pair.2.labelid pair.1] else []) ++
  (if response.priority.signals = [] then [Warn.priorityNoSignals] else []) ++
  response.topics.enum.flatMap (fun tpair =>
    tpair.2.evidence.enum.flatMap (fun epair =>
      if 180 < epair.2.quote.length then
        [Warn.longEvidenceQuote epair.2.quote.length tpair.2.labelid tpair.1 epair.1]
      else []))

/-- `Stage4QualityChecks.validate`: the three checks in source order. -/
def validate (threshold : ℚ) (response : EmailTriageResponse) : Except Exc (List Warn) := do
  let w1 := check_low_confidence threshold response
  let w2 ← check_duplicates response
  let w3 := check_completeness response
  pure (w1 ++ w2 ++ w3)

end Stage4QualityChecks

/-! ## `validation/verifiers.py`

All three verifiers begin by reading `request.email_document` (the
request model declares `email`), so each raises `AttributeError` before
any further work; the remaining bodies are nevertheless translated. -/

namespace EvidencePresenceVerifier

/-- `EvidencePresenceVerifier._verify_span`. -/
def verify_span (text : List Char) (quote : List Char) (start stop : Int) : Bool :=
  if start < 0 || (text.length : Int) < stop || stop ≤ start then false
  else
    let extracted := pyLower (pyStrip ((text.drop start.toNat).take (stop.toNat - start.toNat)))
    let quote_normalized := pyLower (pyStrip quote)
    extracted = quote_normalized

/-- `EvidencePresenceVerifier.verify`. -/
def verify (response : EmailTriageResponse) (request : TriageRequest) :
    Except Exc (List Warn) := do
  let email_document ← TriageRequest.attr_email_document request
  let email_text := email_document.body_text_canonical
  if email_text = [] then
    return [Warn.emptyBodyEvidence]
  let email_text_lower := pyLower email_text
  let mut warnings : List Warn := []
  for tpair in response.topics.enum do
    let topic := tpair.2
    for epair in topic.evidence.enum do
      let evidence := epair.2
      let quote := pyStrip evidence.quote
      let quote_lower := pyLower quote
      if ¬ pyInStr quote_lower email_text_lower then
        let lab ← TopicResult.attr_label_id topic
        warnings := warnings ++ [Warn.evidenceQuoteNotFound quote lab tpair.1 epair.1]
      else
        match evidence.span with
        | some (span_start, span_end) =>
          if verify_span email_text quote span_start span_end then
            pure ()
          else
            let lab ← TopicResult.attr_label_id topic
            warnings := warnings ++ [Warn.evidenceSpanMismatch span_start span_end lab tpair.1 epair.1]
        | none => pure ()
  pure warnings

end EvidencePresenceVerifier

namespace KeywordPresenceVerifier

/-- `KeywordPresenceVerifier._verify_span_bounds`. -/
def verify_span_bounds (text : List Char) (start stop : Int) : Bool :=
  0 ≤ start && start < stop && stop ≤ (text.length : Int)

/-- `KeywordPresenceVerifier.verify`. -/
def verify (response : EmailTriageResponse) (request : TriageRequest) :
    Except Exc (List Warn) := do
  let email_document ← TriageRequest.attr_email_document request
  let email_text := email_document.body_text_canonical
  if email_text = [] then
    return [Warn.emptyBodyKeyword]
  let email_text_lower := pyLower email_text
  let candidate_map := request.candidate_keywords.map
    (fun c => (c.candidate_id, (c.term, c.«lemma»)))
  let mut warnings : List Warn := []
  for tpair in response.topics.enum do
    let topic := tpair.2
    let kws ← TopicResult.attr_keywords_in_text topic
    for kpair in kws.enum do
      let keyword := kpair.2
      let candidate_id ← KeywordInText.attr_candidate_id keyword
      match candidate_map.lookup candidate_id with
      | none =>
        let lab ← TopicResult.attr_label_id topic
        warnings := warnings ++ [Warn.keywordNotInCandidates candidate_id lab kpair.1]
      | some info =>
        let term := pyLower info.1
        let lem := pyLower info.2
        let term_found := pyInStr term email_text_lower
        let lemma_found := if lem = term then term_found else pyInStr lem email_text_lower
        if ¬ term_found ∧ ¬ lemma_found then
          let lab ← TopicResult.attr_label_id topic
          warnings := warnings ++ [Warn.keywordNotFound info.1 info.2 candidate_id lab kpair.1]
        else
          match keyword.spans with
          | some spanList =>
            for span in spanList do
              if ¬ verify_span_bounds email_text span.1 span.2 then
                warnings := warnings ++
                  [Warn.keywordSpanOutOfBounds span.1 span.2 info.1 email_text.length]
          | none => pure ()
  pure warnings

end KeywordPresenceVerifier

namespace SpansCoherenceVerifier

/-- `SpansCoherenceVerifier._check_span`: the guard
`not isinstance(span, list) or len(span) != 2` sees the span exactly as
Pydantic parsed it — a 2-tuple, not a list — so `isinstance(span, list)`
is `False` and the format warning fires for every span.  The later
branches are kept as written. -/
def check_span (span : Int × Int) (text_length : Nat) : Option Warn :=
  let spanIsListInstance := false
  if ¬ spanIsListInstance then some (Warn.spanFormatInvalid span.1 span.2)
  else if span.2 ≤ span.1 then some (Warn.spanStartGeEnd span.1 span.2)
  else if span.1 < 0 then some (Warn.spanStartNegative span.1 span.2)
  else if (text_length : Int) < span.2 then some (Warn.spanEndPastText span.1 span.2 text_length)
  else none

/-- `SpansCoherenceVerifier.verify`. -/
def verify (response : EmailTriageResponse) (request : TriageRequest) :
    Except Exc (List Warn) := do
  let email_document ← TriageRequest.attr_email_document request
  let email_text := email_document.body_text_canonical
  let text_length := email_text.length
  let mut warnings : List Warn := []
  for tpair in response.topics.enum do
    let topic := tpair.2
    let kws ← TopicResult.attr_keywords_in_text topic
    for kw in kws do
      match kw.spans with
      | some spanList =>
        for span in spanList do
          match check_span span text_length with
          | some w => warnings := warnings ++ [w]
          | none => pure ()
      | none => pure ()
  for tpair in response.topics.enum do
    let topic := tpair.2
    for ev in topic.evidence do
      match ev.span with
      | some span =>
        match check_span span text_length with
        | some w => warnings := warnings ++ [w]
        | none => pure ()
      | none => pure ()
  pure warnings

end SpansCoherenceVerifier

/-! ## `validation/pipeline.py` — `ValidationPipeline.validate`

The stage implementations are the attributes `self.stage1` ...
`self.verifiers` initialized in `__init__`; they are injected here as
arguments, so one theorem can quantify over arbitrary stage behaviour.
`Exc` covers every `Exception`-derived value a stage can raise
(`BaseException` short-circuits such as `KeyboardInterrupt` are outside
the model). -/

namespace ValidationPipeline

/-- The body of the `try:` block of `ValidationPipeline.validate`:
stage 1 (parse), stage 2 (schema), the `model_validate` step (whose
inner `except PydanticValidationError` conversion to a
`SchemaValidationError` is part of the injected `parseModel`), stage 3,
stage 4 (warnings), then each verifier in order (warnings). -/
def tryBody {D R : Type} (stage1 : Except Exc D) (stage2 : D → Except Exc Unit)
    (parseModel : D → Except Exc R) (stage3 : R → Except Exc Unit)
    (stage4 : R → Except Exc (List Warn))
    (verifiers : List (R → Except Exc (List Warn))) :
    Except Exc (R × List Warn) := do
  let parsed_dict ← stage1
  stage2 parsed_dict
  let response ← parseModel parsed_dict
  stage3 response
  let mut warnings : List Warn := []
  let quality_warnings ← stage4 response
  warnings := warnings ++ quality_warnings
  for verifier in verifiers do
    let verifier_warnings ← verifier response
    warnings := warnings ++ verifier_warnings
  pure (response, warnings)

/-- The wrapped `ValidationError` built by the final
`except Exception as e:` handler: a plain `ValidationError` whose
details record the original exception's type name. -/
def unexpectedWrap (e : Exc) : ValidationErr :=
  { className := "ValidationError"
    message := "Unexpected validation error"
    details := [("error_type", DetailVal.str e.typeName)] }

/-- The exception handlers of `validate`:
`except ValidationError: raise` re-raises unchanged;
`except Exception as e:` wraps anything else via `unexpectedWrap`. -/
def handle {R : Type} (r : Except Exc (R × List Warn)) : Except Exc (R × List Warn) :=
  match r with
  | .ok v => .ok v
  | .error e =>
    match e with
    | .validation ve => .error (.validation ve)
    | e => .error (.validation (unexpectedWrap e))

/-- `ValidationPipeline.validate` with injected stages. -/
def validate {D R : Type} (stage1 : Except Exc D) (stage2 : D → Except Exc Unit)
    (parseModel : D → Except Exc R) (stage3 : R → Except Exc Unit)
    (stage4 : R → Except Exc (List Warn))
    (verifiers : List (R → Except Exc (List Warn))) :
    Except Exc (R × List Warn) :=
  handle (tryBody stage1 stage2 parseModel stage3 stage4 verifiers)

/-- The pipeline run from the point where stage 1 parsed the content
and stage 2 accepted it (injected as trivially succeeding stages whose
output is the parsed response), with the concrete stage 3, stage 4 and
verifier implementations and the default settings: both optional
verifiers enabled, span coherence always on, warning threshold
`MIN_CONFIDENCE_WARNING_THRESHOLD = 0.2` (the rational `1/5`). -/
def validateFromParsed (request : TriageRequest) (response : EmailTriageResponse) :
    Except Exc (EmailTriageResponse × List Warn) :=
  validate (D := Unit) (pure ()) (fun _ => pure ()) (fun _ => pure response)
    (fun r => Stage3BusinessRules.validate r request)
    (Stage4QualityChecks.validate (1/5))
    [fun r => EvidencePresenceVerifier.verify r request,
     fun r => KeywordPresenceVerifier.verify r request,
     fun r => SpansCoherenceVerifier.verify r request]

end ValidationPipeline

/-! ## `retry/engine.py` — `RetryEngine.execute_with_retry`

The per-attempt work of a strategy (prompt build, gateway generation,
pipeline validation) is abstracted by a function `gen` from the number
of generations requested so far to the attempt's outcome; everything the
engine itself does — budgets, escalation, bookkeeping, metadata, what it
catches and what it lets through — is translated from the source. -/

namespace RetryEngine

structure EngineSettings where
  MAX_RETRIES : Nat
  FALLBACK_MODELS : List String
deriving DecidableEq, Repr

/-- Exceptions of the gateway/client layer; none of them derives from
`ValidationError`. -/
inductive GatewayExc
  | modelNotAvailable (model : String)
  | connection (message : String)
  | otherExc (typeName : String)
deriving DecidableEq, Repr

def GatewayExc.typeName : GatewayExc → String
  | .modelNotAvailable _ => "LLMModelNotAvailableError"
  | .connection _ => "LLMConnectionError"
  | .otherExc n => n

/-- Outcome of one `strategy_instance.execute(...)` call: a validated
response with warnings, a raised `ValidationError`, or any other raised
exception. -/
inductive AttemptOutcome
  | success (response : EmailTriageResponse) (warnings : List Warn)
  | validationError (e : ValidationErr)
  | pyError (e : GatewayExc)
deriving DecidableEq, Repr

/-- `retry/metadata.py` `RetryMetadata` (the wall-clock latency and the
LLM metadata snapshot, both read off clocks and the gateway response,
are not modelled). -/
structure RetryMetadata where
  total_attempts : Nat
  strategies_used : List String
  final_strategy : String
  validation_failures : List (List (String × DetailVal))
deriving DecidableEq, Repr

inductive EngineResult
  | ok (response : EmailTriageResponse) (meta : RetryMetadata) (warnings : List Warn)
  | exhausted (request : TriageRequest) (meta : RetryMetadata) (last_error : ValidationErr)
  | uncaught (e : GatewayExc)
deriving DecidableEq, Repr

/-- The engine's mutable locals: `total_attempts`, the generation
cursor, `strategies_used`, `validation_failures`, `last_error`. -/
structure EngSt where
  total_attempts : Nat
  gen_idx : Nat
  strategies_used : List String
  validation_failures : List (List (String × DetailVal))
  last_error : Option ValidationErr
deriving DecidableEq, Repr

def initSt : EngSt := ⟨0, 0, [], [], none⟩

/-- `self.strategies` as built in `RetryEngine.__init__`: standard with
`MAX_RETRIES` attempts, shrink with 2, fallback with
`len(FALLBACK_MODELS) if FALLBACK_MODELS else 1`. -/
def strategies (s : EngineSettings) : List (String × Nat) :=
  [("standard", s.MAX_RETRIES), ("shrink", 2),
   ("fallback", if s.FALLBACK_MODELS = [] then 1 else s.FALLBACK_MODELS.length)]

/-- One `strategy_instance.execute(...)` call.  A strategy that reaches
its gateway call consumes one generation index.
`FallbackModelStrategy.execute` with an empty model list performs no
generation: it re-raises the last validation error (`raise error`), or
raises `ValueError` when there is none. -/
def strategyExecute (fallback_models : List String) (gen : Nat → AttemptOutcome)
    (name : String) (st : EngSt) : AttemptOutcome × Nat :=
  if name = "fallback" ∧ fallback_models = [] then
    match st.last_error with
    | some e => (.validationError e, st.gen_idx)
    | none => (.pyError (.otherExc "ValueError"), st.gen_idx)
  else
    (gen st.gen_idx, st.gen_idx + 1)

/-- The `for attempt in range(1, max_attempts + 1)` loop of
`execute_with_retry` for one strategy; `remaining` counts how many
attempts the loop still owns.  `total_attempts += 1` precedes the
`try:`; success snapshots the metadata (`final_strategy :=
strategy_name`, `strategies_used` as accumulated) and returns; a caught
`ValidationError` is appended to `validation_failures`, recorded as
`last_error`, and either retried in place or handed back for
escalation; any other exception is not caught and propagates. -/
def attemptLoop (fallback_models : List String) (gen : Nat → AttemptOutcome)
    (name : String) : Nat → EngSt → EngSt ⊕ EngineResult
  | 0, st => .inl st
  | remaining + 1, st =>
    match strategyExecute fallback_models gen name
        { st with total_attempts := st.total_attempts + 1 } with
    | (.success response warnings, _) =>
      .inr (.ok response
        { total_attempts := st.total_attempts + 1
          strategies_used := st.strategies_used
          final_strategy := name
          validation_failures := st.validation_failures } warnings)
    | (.validationError e, gi) =>
      if remaining = 0 then
        .inl { st with
          total_attempts := st.total_attempts + 1
          gen_idx := gi
          validation_failures := st.validation_failures ++ [e.details]
          last_error := some e }
      else
        attemptLoop fallback_models gen name remaining { st with
          total_attempts := st.total_attempts + 1
          gen_idx := gi
          validation_failures := st.validation_failures ++ [e.details]
          last_error := some e }
    | (.pyError e, _) => .inr (.uncaught e)

/-- The outer strategy loop.  A strategy's name is appended to
`strategies_used` on entry, before any of its attempts runs; when every
strategy is exhausted the engine raises `RetryExhausted` carrying the
request, the final metadata (`final_strategy` is the last strategy
entered, `"none"` if there was none) and the last `ValidationError`
(`ValidationError("Unknown error", {})` if none was recorded). -/
def runStrategies (fallback_models : List String) (gen : Nat → AttemptOutcome)
    (request : TriageRequest) : List (String × Nat) → EngSt → EngineResult
  | [], st =>
    .exhausted request
      { total_attempts := st.total_attempts
        strategies_used := st.strategies_used
        final_strategy := st.strategies_used.getLastD "none"
        validation_failures := st.validation_failures }
      (st.last_error.getD
        { className := "ValidationError", message := "Unknown error", details := [] })
  | (name, max_attempts) :: rest, st =>
    match attemptLoop fallback_models gen name max_attempts { st with
        strategies_used :=
          if st.strategies_used.contains name then st.strategies_used
          else st.strategies_used ++ [name] } with
    | .inr result => result
    | .inl st2 => runStrategies fallback_models gen request rest st2

/-- `RetryEngine.execute_with_retry`. -/
def execute_with_retry (s : EngineSettings) (gen : Nat → AttemptOutcome)
    (request : TriageRequest) : EngineResult :=
  runStrategies s.FALLBACK_MODELS gen request (strategies s) initSt

end RetryEngine

/-! ## `persistence/repository.py` — the DLQ, and
`tasks/triage_tasks.py` — `triage_email_task` -/

namespace TriageRepository

/-- `retry/exceptions.py` `RetryExhausted`. -/
structure RetryExhaustedExc where
  request : TriageRequest
  retry_metadata : RetryEngine.RetryMetadata
  last_error : ValidationErr
deriving DecidableEq, Repr

/-- The DLQ entry dict built by `save_to_dlq` (its `timestamp` wall-clock
field is not modelled; JSON serialization is modelled by keeping the
record itself; `last_error` keeps the exception whose `str()` and type
name the dict stores). -/
structure DLQEntry where
  request_uid : String
  total_attempts : Nat
  strategies_used : List String
  validation_failures : List (List (String × DetailVal))
  last_error : ValidationErr
  request : TriageRequest
deriving DecidableEq, Repr

/-- Redis `LPUSH`: prepend the value at the head. -/
def redisLpush {α : Type} (l : List α) (x : α) : List α := x :: l

/-- Redis `LTRIM start stop` for non-negative indices: keep the
elements at indices `start .. stop`. -/
def redisLtrim {α : Type} (l : List α) (start stop : Nat) : List α :=
  (l.drop start).take (stop + 1 - start)

def mkDLQEntry (exc : RetryExhaustedExc) : DLQEntry :=
  { request_uid := exc.request.email.uid
    total_attempts := exc.retry_metadata.total_attempts
    strategies_used := exc.retry_metadata.strategies_used
    validation_failures := exc.retry_metadata.validation_failures
    last_error := exc.last_error
    request := exc.request }

/-- `TriageRepository.save_to_dlq`: build the entry, `LPUSH` it onto
`triage:dlq`, then `LTRIM` the list to indices 0..9999. -/
def save_to_dlq (dlq : List DLQEntry) (exc : RetryExhaustedExc) : List DLQEntry :=
  redisLtrim (redisLpush dlq (mkDLQEntry exc)) 0 9999

end TriageRepository

/-- Outcome of one Celery `triage_email_task` invocation (the successful
result's persisted record and timestamps are outside the DLQ claim; the
re-raise of `RetryExhausted` reports task failure; any other exception
is retried at the Celery level via `self.retry`). -/
inductive TaskOutcome
  | succeeded (response : EmailTriageResponse) (warnings : List Warn) (retries_used : Nat)
  | failed (exc : TriageRepository.RetryExhaustedExc)
  | celeryRetry (typeName : String)
deriving DecidableEq, Repr

/-- `triage_email_task`, from the engine call on: on success the result
is built and saved (result-store writes do not touch the DLQ); on
`RetryExhausted` exactly one `save_to_dlq` call runs and the exception
is re-raised; any other exception goes to Celery retry without touching
the DLQ. -/
def triage_email_task (dlq : List TriageRepository.DLQEntry)
    (engineResult : RetryEngine.EngineResult) :
    List TriageRepository.DLQEntry × TaskOutcome :=
  match engineResult with
  | .ok response meta warnings =>
    (dlq, .succeeded response warnings (meta.total_attempts - 1))
  | .exhausted request meta last_error =>
    let exc : TriageRepository.RetryExhaustedExc := ⟨request, meta, last_error⟩
    (TriageRepository.save_to_dlq dlq exc, .failed exc)
  | .uncaught e => (dlq, .celeryRetry e.typeName)

/-! ## Engine lemmas -/

namespace RetryEngine

theorem details_range_shift (es : Nat → ValidationErr) (g r : Nat) :
    (List.range (r + 1)).map (fun k => (es (g + k)).details) =
      (es g).details :: (List.range r).map (fun k => (es (g + 1 + k)).details) := by
  rw [List.range_succ_eq_map, List.map_cons, List.map_map]
  refine congrArg₂ _ (by simp) ?_
  apply List.map_congr_left
  intro x _
  simp only [Function.comp_apply]
  congr 2
  omega

/-- Closed form of the attempt loop over a window in which every
generation fails validation: the whole budget is consumed, each failure
is recorded, and control returns to the strategy loop. -/
theorem attemptLoop_VE_window (fallback_models : List String)
    (gen : Nat → AttemptOutcome) (es : Nat → ValidationErr) (name : String)
    (hname : ¬(name = "fallback" ∧ fallback_models = [])) :
    ∀ (remaining : Nat) (st : EngSt),
      (∀ i, st.gen_idx ≤ i → i < st.gen_idx + remaining →
        gen i = .validationError (es i)) →
      attemptLoop fallback_models gen name remaining st =
        .inl { total_attempts := st.total_attempts + remaining
               gen_idx := st.gen_idx + remaining
               strategies_used := st.strategies_used
               validation_failures := st.validation_failures ++
                 (List.range remaining).map (fun k => (es (st.gen_idx + k)).details)
               last_error :=
                 if remaining = 0 then st.last_error
                 else some (es (st.gen_idx + remaining - 1)) } := by
  intro remaining
  induction remaining with
  | zero =>
    intro st _
    simp [attemptLoop]
  | succ r ih =>
    intro st hwin
    have hgen : gen st.gen_idx = .validationError (es st.gen_idx) :=
      hwin st.gen_idx (le_refl _) (by omega)
    unfold attemptLoop
    simp only [strategyExecute, if_neg hname, hgen]
    cases r with
    | zero =>
      simp [EngSt.mk.injEq, List.range_succ]
    | succ s =>
      have hs : ¬ (s + 1 = 0) := by omega
      simp only [hs, if_false]
      rw [ih]
      · dsimp only
        rw [Sum.inl.injEq, EngSt.mk.injEq]
        refine ⟨by omega, by omega, rfl, ?_, ?_⟩
        · simp [details_range_shift, List.append_assoc]
        · have harg : st.gen_idx + 1 + (s + 1) - 1 = st.gen_idx + (s + 1 + 1) - 1 := by
            omega
          simp [hs, harg]
      · intro i h1 h2
        simp only at h1 h2
        exact hwin i (by omega) (by omega)

/-- `FallbackModelStrategy.execute` with no configured fallback models
re-raises the last validation error; the engine catches it, records it
a second time, and the single fallback attempt is spent. -/
theorem attemptLoop_fallback_empty (gen : Nat → AttemptOutcome) (st : EngSt)
    (e : ValidationErr) (hlast : st.last_error = some e) :
    attemptLoop [] gen "fallback" 1 st =
      .inl { st with
        total_attempts := st.total_attempts + 1
        validation_failures := st.validation_failures ++ [e.details]
        last_error := some e } := by
  unfold attemptLoop
  simp [strategyExecute, hlast, EngSt.mk.injEq]

/-- If the generations before index `k` fail validation and the one at
`k` raises a non-`ValidationError` exception, an attempt window that
reaches `k` rethrows that exception unchanged. -/
theorem attemptLoop_pyError (fallback_models : List String)
    (gen : Nat → AttemptOutcome) (es : Nat → ValidationErr) (name : String)
    (k : Nat) (e : GatewayExc)
    (hname : ¬(name = "fallback" ∧ fallback_models = []))
    (hVE : ∀ i, i < k → gen i = .validationError (es i))
    (hk : gen k = .pyError e) :
    ∀ (remaining : Nat) (st : EngSt), st.gen_idx ≤ k → k < st.gen_idx + remaining →
      attemptLoop fallback_models gen name remaining st = .inr (.uncaught e) := by
  intro remaining
  induction remaining with
  | zero => intro st _ _; omega
  | succ r ih =>
    intro st h1 h2
    unfold attemptLoop
    rcases Nat.eq_or_lt_of_le h1 with heq | hlt
    · simp [strategyExecute, if_neg hname, heq, hk]
    · simp only [strategyExecute, if_neg hname, hVE st.gen_idx hlt]
      cases r with
      | zero => omega
      | succ s =>
        have hs : ¬ (s + 1 = 0) := by omega
        simp only [hs, if_false]
        exact ih _ (by simp; omega) (by simp; omega)

/-- Arbitrary-behaviour classification of one attempt window: it either
consumes its whole budget and escalates, or succeeds with a metadata
snapshot taken mid-window, or rethrows a non-`ValidationError`. -/
theorem attemptLoop_cases (fallback_models : List String)
    (gen : Nat → AttemptOutcome) (name : String) :
    ∀ (remaining : Nat) (st : EngSt),
      (∃ st', attemptLoop fallback_models gen name remaining st = .inl st' ∧
        st'.strategies_used = st.strategies_used ∧
        st'.total_attempts = st.total_attempts + remaining) ∨
      (∃ resp m w, attemptLoop fallback_models gen name remaining st = .inr (.ok resp m w) ∧
        m.strategies_used = st.strategies_used ∧ m.final_strategy = name ∧
        st.total_attempts + 1 ≤ m.total_attempts ∧
        m.total_attempts ≤ st.total_attempts + remaining) ∨
      (∃ e, attemptLoop fallback_models gen name remaining st = .inr (.uncaught e)) := by
  intro remaining
  induction remaining with
  | zero =>
    intro st
    exact Or.inl ⟨st, by simp [attemptLoop], rfl, rfl⟩
  | succ r ih =>
    intro st
    unfold attemptLoop
    rcases hse : strategyExecute fallback_models gen name
        { st with total_attempts := st.total_attempts + 1 } with ⟨out, gi⟩
    cases out with
    | success resp w =>
      exact Or.inr (Or.inl ⟨resp, _, w, rfl, rfl, rfl, by simp, by simp⟩)
    | validationError e =>
      cases r with
      | zero =>
        exact Or.inl ⟨_, rfl, rfl, rfl⟩
      | succ s =>
        have hs : ¬ (s + 1 = 0) := by omega
        simp only [hs, if_false]
        rcases ih { st with
            total_attempts := st.total_attempts + 1
            gen_idx := gi
            validation_failures := st.validation_failures ++ [e.details]
            last_error := some e } with
          ⟨st', hst', hu, ht⟩ | ⟨resp, m, w, hm, h1, h2, h3, h4⟩ | ⟨e2, he2⟩
        · exact Or.inl ⟨st', hst', by simpa using hu, by simp at ht; omega⟩
        · exact Or.inr (Or.inl ⟨resp, m, w, hm, by simpa using h1, h2,
            by simp at h3; omega, by simp at h4; omega⟩)
        · exact Or.inr (Or.inr ⟨e2, he2⟩)
    | pyError e =>
      exact Or.inr (Or.inr ⟨e, rfl⟩)

theorem not_standard_special (fb : List String) : ¬("standard" = "fallback" ∧ fb = []) := by
  simp

theorem not_shrink_special (fb : List String) : ¬("shrink" = "fallback" ∧ fb = []) := by
  simp

/-- One step of the strategy loop when the strategy's window escalates. -/
theorem runStrategies_cons_inl (fallback_models : List String)
    (gen : Nat → AttemptOutcome) (request : TriageRequest) (name : String)
    (max_attempts : Nat) (rest : List (String × Nat)) (st st' : EngSt)
    (h : attemptLoop fallback_models gen name max_attempts { st with
        strategies_used :=
          if st.strategies_used.contains name then st.strategies_used
          else st.strategies_used ++ [name] } = .inl st') :
    runStrategies fallback_models gen request ((name, max_attempts) :: rest) st =
      runStrategies fallback_models gen request rest st' := by
  conv_lhs => unfold runStrategies
  rw [h]

/-- One step of the strategy loop when the strategy's window returns a
result. -/
theorem runStrategies_cons_inr (fallback_models : List String)
    (gen : Nat → AttemptOutcome) (request : TriageRequest) (name : String)
    (max_attempts : Nat) (rest : List (String × Nat)) (st : EngSt)
    (result : EngineResult)
    (h : attemptLoop fallback_models gen name max_attempts { st with
        strategies_used :=
          if st.strategies_used.contains name then st.strategies_used
          else st.strategies_used ++ [name] } = .inr result) :
    runStrategies fallback_models gen request ((name, max_attempts) :: rest) st =
      result := by
  conv_lhs => unfold runStrategies
  rw [h]

/-- When every attempt outcome is a validation failure, the engine
exhausts the full ladder and raises `RetryExhausted` carrying the
request, the metadata, and the validation error of the last attempt. -/
theorem execute_allVE (s : EngineSettings) (es : Nat → ValidationErr)
    (request : TriageRequest) :
    ∃ m : RetryMetadata,
      execute_with_retry s (fun i => .validationError (es i)) request =
        .exhausted request m (es (s.MAX_RETRIES + 1 + s.FALLBACK_MODELS.length)) ∧
      m.total_attempts = s.MAX_RETRIES + 2 + max s.FALLBACK_MODELS.length 1 ∧
      m.strategies_used = ["standard", "shrink", "fallback"] ∧
      m.final_strategy = "fallback" ∧
      m.validation_failures.length = m.total_attempts := by
  obtain ⟨MR, fbv⟩ := s
  dsimp only
  set gen : Nat → AttemptOutcome := fun i => .validationError (es i) with hgen
  have hwin : ∀ (st : EngSt) (r : Nat), ∀ i, st.gen_idx ≤ i → i < st.gen_idx + r →
      gen i = .validationError (es i) := fun _ _ _ _ _ => rfl
  set FA := (List.range MR).map (fun k => (es k).details) with hFA
  set LEA : Option ValidationErr := if MR = 0 then none else some (es (MR - 1)) with hLEA
  have stepA : attemptLoop fbv gen "standard" MR
      ⟨0, 0, ["standard"], [], none⟩ = .inl ⟨MR, MR, ["standard"], FA, LEA⟩ := by
    rw [attemptLoop_VE_window fbv gen es "standard"
      (not_standard_special _) MR ⟨0, 0, ["standard"], [], none⟩ (hwin _ _)]
    simp [EngSt.mk.injEq, hFA, hLEA]
  set FB := FA ++ [(es MR).details, (es (MR + 1)).details] with hFB
  have stepB : attemptLoop fbv gen "shrink" 2
      ⟨MR, MR, ["standard", "shrink"], FA, LEA⟩ =
      .inl ⟨MR + 2, MR + 2, ["standard", "shrink"], FB, some (es (MR + 1))⟩ := by
    rw [attemptLoop_VE_window fbv gen es "shrink"
      (not_shrink_special _) 2 ⟨MR, MR, ["standard", "shrink"], FA, LEA⟩ (hwin _ _)]
    simp [EngSt.mk.injEq, hFB, List.range_succ]
  have c0 : execute_with_retry ⟨MR, fbv⟩ gen request =
      runStrategies fbv gen request
        [("shrink", 2), ("fallback", if fbv = [] then 1 else fbv.length)]
        ⟨MR, MR, ["standard"], FA, LEA⟩ :=
    runStrategies_cons_inl _ _ _ _ _ _ _ _ stepA
  have c1 : runStrategies fbv gen request
      [("shrink", 2), ("fallback", if fbv = [] then 1 else fbv.length)]
      ⟨MR, MR, ["standard"], FA, LEA⟩ =
      runStrategies fbv gen request
        [("fallback", if fbv = [] then 1 else fbv.length)]
        ⟨MR + 2, MR + 2, ["standard", "shrink"], FB, some (es (MR + 1))⟩ :=
    runStrategies_cons_inl _ _ _ _ _ _ _ _ stepB
  by_cases hfb : fbv = []
  · subst hfb
    have stepC : attemptLoop [] gen "fallback" 1
        ⟨MR + 2, MR + 2, ["standard", "shrink", "fallback"], FB, some (es (MR + 1))⟩ =
        .inl ⟨MR + 3, MR + 2, ["standard", "shrink", "fallback"],
          FB ++ [(es (MR + 1)).details], some (es (MR + 1))⟩ := by
      rw [attemptLoop_fallback_empty gen _ (es (MR + 1)) rfl]
    have c2 : runStrategies [] gen request
        [("fallback", if ([] : List String) = [] then 1 else ([] : List String).length)]
        ⟨MR + 2, MR + 2, ["standard", "shrink"], FB, some (es (MR + 1))⟩ =
        runStrategies [] gen request []
          ⟨MR + 3, MR + 2, ["standard", "shrink", "fallback"],
            FB ++ [(es (MR + 1)).details], some (es (MR + 1))⟩ :=
      runStrategies_cons_inl _ _ _ _ _ _ _ _ stepC
    have cend := (c0.trans c1).trans c2
    rw [runStrategies] at cend
    refine ⟨⟨MR + 3, ["standard", "shrink", "fallback"], "fallback",
      FB ++ [(es (MR + 1)).details]⟩, cend.trans ?_, by simp, rfl, by simp, ?_⟩
    · rw [EngineResult.exhausted.injEq]
      exact ⟨rfl, rfl, rfl⟩
    · simp [hFB, hFA]
  · have hlen : fbv.length ≠ 0 := by
      simpa [List.length_eq_zero] using hfb
    have stepC : attemptLoop fbv gen "fallback" fbv.length
        ⟨MR + 2, MR + 2, ["standard", "shrink", "fallback"], FB, some (es (MR + 1))⟩ =
        .inl ⟨MR + 2 + fbv.length, MR + 2 + fbv.length,
          ["standard", "shrink", "fallback"],
          FB ++ (List.range fbv.length).map (fun k => (es (MR + 2 + k)).details),
          some (es (MR + 1 + fbv.length))⟩ := by
      rw [attemptLoop_VE_window fbv gen es "fallback"
        (by simp [hfb]) fbv.length
        ⟨MR + 2, MR + 2, ["standard", "shrink", "fallback"], FB, some (es (MR + 1))⟩
        (hwin _ _)]
      rw [Sum.inl.injEq, EngSt.mk.injEq]
      refine ⟨rfl, rfl, rfl, rfl, ?_⟩
      rw [if_neg hlen]
      dsimp only
      congr 2
      omega
    have c2 : runStrategies fbv gen request
        [("fallback", if fbv = [] then 1 else fbv.length)]
        ⟨MR + 2, MR + 2, ["standard", "shrink"], FB, some (es (MR + 1))⟩ =
        runStrategies fbv gen request []
          ⟨MR + 2 + fbv.length, MR + 2 + fbv.length,
            ["standard", "shrink", "fallback"],
            FB ++ (List.range fbv.length).map (fun k => (es (MR + 2 + k)).details),
            some (es (MR + 1 + fbv.length))⟩ := by
      rw [if_neg hfb]
      exact runStrategies_cons_inl _ _ _ _ _ _ _ _ stepC
    have cend := (c0.trans c1).trans c2
    rw [runStrategies] at cend
    refine ⟨⟨MR + 2 + fbv.length, ["standard", "shrink", "fallback"], "fallback",
      FB ++ (List.range fbv.length).map (fun k => (es (MR + 2 + k)).details)⟩,
      cend.trans ?_, ?_, rfl, by simp, ?_⟩
    · rw [EngineResult.exhausted.injEq]
      exact ⟨rfl, rfl, rfl⟩
    · have hmax : max fbv.length 1 = fbv.length := by omega
      simp [hmax]
    · simp [hFB, hFA]
      omega

/-- An all-validation-failure run never rethrows a gateway exception:
the wrapped errors are consumed by the ladder. -/
theorem execute_allVE_ne_uncaught (s : EngineSettings) (es : Nat → ValidationErr)
    (request : TriageRequest) (e : GatewayExc) :
    execute_with_retry s (fun i => .validationError (es i)) request ≠ .uncaught e := by
  obtain ⟨m, hm, -⟩ := execute_allVE s es request
  rw [hm]
  simp

/-- If the generations before `k` fail validation and the `k`-th raises
a non-`ValidationError` exception that the budgets reach, the engine
rethrows exactly that exception. -/
theorem execute_pyError (s : EngineSettings) (gen : Nat → AttemptOutcome)
    (es : Nat → ValidationErr) (request : TriageRequest) (k : Nat) (e : GatewayExc)
    (hVE : ∀ i, i < k → gen i = .validationError (es i))
    (hk : gen k = .pyError e)
    (hbound : k < s.MAX_RETRIES + 2 + s.FALLBACK_MODELS.length) :
    execute_with_retry s gen request = .uncaught e := by
  obtain ⟨MR, fbv⟩ := s
  dsimp only at hbound ⊢
  set FA := (List.range MR).map (fun k => (es k).details) with hFA
  set LEA : Option ValidationErr := if MR = 0 then none else some (es (MR - 1)) with hLEA
  by_cases hk1 : k < MR
  · exact runStrategies_cons_inr _ _ _ _ _ _ _ _
      (attemptLoop_pyError fbv gen es "standard" k e (not_standard_special _)
        hVE hk MR ⟨0, 0, ["standard"], [], none⟩ (by simp) (by simpa using hk1))
  · have stepA : attemptLoop fbv gen "standard" MR
        ⟨0, 0, ["standard"], [], none⟩ = .inl ⟨MR, MR, ["standard"], FA, LEA⟩ := by
      rw [attemptLoop_VE_window fbv gen es "standard"
        (not_standard_special _) MR ⟨0, 0, ["standard"], [], none⟩
        (fun i h1 h2 => hVE i (by simp at h2; omega))]
      simp [EngSt.mk.injEq, hFA, hLEA]
    have c0 : execute_with_retry ⟨MR, fbv⟩ gen request =
        runStrategies fbv gen request
          [("shrink", 2), ("fallback", if fbv = [] then 1 else fbv.length)]
          ⟨MR, MR, ["standard"], FA, LEA⟩ :=
      runStrategies_cons_inl _ _ _ _ _ _ _ _ stepA
    by_cases hk2 : k < MR + 2
    · refine c0.trans (runStrategies_cons_inr _ _ _ _ _ _ _ _
        (attemptLoop_pyError fbv gen es "shrink" k e (not_shrink_special _)
          hVE hk 2 ⟨MR, MR, ["standard", "shrink"], FA, LEA⟩
          (by simpa using hk1) (by simpa using hk2)))
    · have hfb : fbv ≠ [] := by
        intro hnil
        rw [hnil] at hbound
        simp at hbound
        omega
      set FB := FA ++ [(es MR).details, (es (MR + 1)).details] with hFB
      have stepB : attemptLoop fbv gen "shrink" 2
          ⟨MR, MR, ["standard", "shrink"], FA, LEA⟩ =
          .inl ⟨MR + 2, MR + 2, ["standard", "shrink"], FB, some (es (MR + 1))⟩ := by
        rw [attemptLoop_VE_window fbv gen es "shrink"
          (not_shrink_special _) 2 ⟨MR, MR, ["standard", "shrink"], FA, LEA⟩
          (fun i h1 h2 => hVE i (by simp at h1 h2; omega))]
        simp [EngSt.mk.injEq, hFB, List.range_succ]
      have c1 : runStrategies fbv gen request
          [("shrink", 2), ("fallback", if fbv = [] then 1 else fbv.length)]
          ⟨MR, MR, ["standard"], FA, LEA⟩ =
          runStrategies fbv gen request
            [("fallback", if fbv = [] then 1 else fbv.length)]
            ⟨MR + 2, MR + 2, ["standard", "shrink"], FB, some (es (MR + 1))⟩ :=
        runStrategies_cons_inl _ _ _ _ _ _ _ _ stepB
      refine (c0.trans c1).trans ?_
      rw [if_neg hfb]
      exact runStrategies_cons_inr _ _ _ _ _ _ _ _
        (attemptLoop_pyError fbv gen es "fallback" k e (by simp [hfb])
          hVE hk fbv.length
          ⟨MR + 2, MR + 2, ["standard", "shrink", "fallback"], FB, some (es (MR + 1))⟩
          (by simpa using hk2) (by simpa using hbound))

/-- The metadata invariants of spec property P7 as amended: a non-empty
duplicate-free prefix of the strategy ladder, a member final strategy,
and (for `MAX_RETRIES ≥ 1`) at least as many attempts as strategies. -/
def MetaInvariant (m : RetryMetadata) : Prop :=
  m.strategies_used ≠ [] ∧
  (m.strategies_used = ["standard"] ∨ m.strategies_used = ["standard", "shrink"] ∨
    m.strategies_used = ["standard", "shrink", "fallback"]) ∧
  m.final_strategy ∈ m.strategies_used ∧
  m.strategies_used.length ≤ m.total_attempts

/-- `MetaInvariant` for whichever metadata the engine result carries. -/
def ResultMetaInvariant : EngineResult → Prop
  | .ok _ m _ => MetaInvariant m
  | .exhausted _ m _ => MetaInvariant m
  | .uncaught _ => True

theorem execute_metaInvariant (s : EngineSettings) (gen : Nat → AttemptOutcome)
    (request : TriageRequest) (hMR : 1 ≤ s.MAX_RETRIES) :
    ResultMetaInvariant (execute_with_retry s gen request) := by
  obtain ⟨MR, fbv⟩ := s
  dsimp only at hMR ⊢
  have hF : 1 ≤ (if fbv = [] then 1 else fbv.length) := by
    by_cases h : fbv = []
    · simp [h]
    · rw [if_neg h]
      exact List.length_pos.mpr h
  rcases attemptLoop_cases fbv gen "standard" MR ⟨0, 0, ["standard"], [], none⟩ with
    ⟨stA, hA, hAu, hAt⟩ | ⟨resp, m, w, hA, h1, h2, h3, h4⟩ | ⟨e, hA⟩
  · have c0 : execute_with_retry ⟨MR, fbv⟩ gen request =
        runStrategies fbv gen request
          [("shrink", 2), ("fallback", if fbv = [] then 1 else fbv.length)] stA :=
      runStrategies_cons_inl _ _ _ _ _ _ _ _ hA
    have hAu2 : (if stA.strategies_used.contains "shrink" then stA.strategies_used
        else stA.strategies_used ++ ["shrink"]) = ["standard", "shrink"] := by
      rw [hAu]
      rfl
    rcases attemptLoop_cases fbv gen "shrink" 2
        { stA with strategies_used := if stA.strategies_used.contains "shrink"
            then stA.strategies_used else stA.strategies_used ++ ["shrink"] } with
      ⟨stB, hB, hBu, hBt⟩ | ⟨resp, m, w, hB, h1, h2, h3, h4⟩ | ⟨e, hB⟩
    · have c1 : execute_with_retry ⟨MR, fbv⟩ gen request =
          runStrategies fbv gen request
            [("fallback", if fbv = [] then 1 else fbv.length)] stB :=
        c0.trans (runStrategies_cons_inl _ _ _ _ _ _ _ _ hB)
      have hBu2 : (if stB.strategies_used.contains "fallback" then stB.strategies_used
          else stB.strategies_used ++ ["fallback"]) =
            ["standard", "shrink", "fallback"] := by
        rw [hBu]
        simp only [hAu2]
        rfl
      rcases attemptLoop_cases fbv gen "fallback" (if fbv = [] then 1 else fbv.length)
          { stB with strategies_used := if stB.strategies_used.contains "fallback"
              then stB.strategies_used else stB.strategies_used ++ ["fallback"] } with
        ⟨stC, hC, hCu, hCt⟩ | ⟨resp, m, w, hC, h1, h2, h3, h4⟩ | ⟨e, hC⟩
      · have c2 : execute_with_retry ⟨MR, fbv⟩ gen request =
            runStrategies fbv gen request [] stC :=
          c1.trans (runStrategies_cons_inl _ _ _ _ _ _ _ _ hC)
        rw [runStrategies] at c2
        rw [c2]
        have hCu2 : stC.strategies_used = ["standard", "shrink", "fallback"] := by
          rw [hCu]
          dsimp only
          exact hBu2
        have hCt2 : stC.total_attempts =
            stB.total_attempts + (if fbv = [] then 1 else fbv.length) := by
          simpa using hCt
        have hBt2 : stB.total_attempts = stA.total_attempts + 2 := by
          simpa using hBt
        have hAt2 : stA.total_attempts = MR := by simpa using hAt
        refine ⟨by simp [hCu2], by simp [hCu2], ?_, ?_⟩
        · dsimp only
          rw [hCu2]
          simp
        · dsimp only
          rw [hCu2]
          simp only [List.length_cons, List.length_nil]
          omega
      · have c2 : execute_with_retry ⟨MR, fbv⟩ gen request = .ok resp m w :=
          c1.trans (runStrategies_cons_inr _ _ _ _ _ _ _ _ hC)
        rw [c2]
        have hmu : m.strategies_used = ["standard", "shrink", "fallback"] := by
          rw [h1]
          dsimp only
          exact hBu2
        have h3' : stB.total_attempts + 1 ≤ m.total_attempts := by simpa using h3
        have hBt2 : stB.total_attempts = stA.total_attempts + 2 := by simpa using hBt
        have hAt2 : stA.total_attempts = MR := by simpa using hAt
        refine ⟨by simp [hmu], by simp [hmu], ?_, ?_⟩
        · rw [hmu, h2]
          simp
        · rw [hmu]
          simp only [List.length_cons, List.length_nil]
          omega
      · have c2 : execute_with_retry ⟨MR, fbv⟩ gen request = .uncaught e :=
          c1.trans (runStrategies_cons_inr _ _ _ _ _ _ _ _ hC)
        rw [c2]
        trivial
    · have c1 : execute_with_retry ⟨MR, fbv⟩ gen request = .ok resp m w :=
        c0.trans (runStrategies_cons_inr _ _ _ _ _ _ _ _ hB)
      rw [c1]
      have hmu : m.strategies_used = ["standard", "shrink"] := by
        rw [h1]
        dsimp only
        exact hAu2
      have h3' : stA.total_attempts + 1 ≤ m.total_attempts := by simpa using h3
      have hAt2 : stA.total_attempts = MR := by simpa using hAt
      refine ⟨by simp [hmu], by simp [hmu], ?_, ?_⟩
      · rw [hmu, h2]
        simp
      · rw [hmu]
        simp only [List.length_cons, List.length_nil]
        omega
    · have c1 : execute_with_retry ⟨MR, fbv⟩ gen request = .uncaught e :=
        c0.trans (runStrategies_cons_inr _ _ _ _ _ _ _ _ hB)
      rw [c1]
      trivial
  · have c0 : execute_with_retry ⟨MR, fbv⟩ gen request = .ok resp m w :=
      runStrategies_cons_inr _ _ _ _ _ _ _ _ hA
    rw [c0]
    have hmu : m.strategies_used = ["standard"] := by simpa using h1
    refine ⟨by simp [hmu], by simp [hmu], ?_, ?_⟩
    · rw [hmu, h2]
      simp
    · rw [hmu]
      simp only [List.length_cons, List.length_nil]
      omega
  · have c0 : execute_with_retry ⟨MR, fbv⟩ gen request = .uncaught e :=
      runStrategies_cons_inr _ _ _ _ _ _ _ _ hA
    rw [c0]
    trivial

end RetryEngine

/-! ## Pipeline handler lemmas -/

namespace ValidationPipeline

theorem validate_error_validation {D R : Type} (stage1 : Except Exc D)
    (stage2 : D → Except Exc Unit) (parseModel : D → Except Exc R)
    (stage3 : R → Except Exc Unit) (stage4 : R → Except Exc (List Warn))
    (verifiers : List (R → Except Exc (List Warn))) (e : Exc)
    (h : validate stage1 stage2 parseModel stage3 stage4 verifiers = .error e) :
    ∃ ve, e = .validation ve := by
  unfold validate handle at h
  cases htb : tryBody stage1 stage2 parseModel stage3 stage4 verifiers with
  | ok v => rw [htb] at h; exact absurd h (by simp)
  | error e0 =>
    rw [htb] at h
    cases e0 with
    | validation ve =>
      simp only [Except.error.injEq] at h
      exact ⟨ve, h.symm⟩
    | attributeError o a =>
      simp only [Except.error.injEq] at h
      exact ⟨unexpectedWrap (.attributeError o a), h.symm⟩
    | other n =>
      simp only [Except.error.injEq] at h
      exact ⟨unexpectedWrap (.other n), h.symm⟩

theorem validate_wraps_unexpected {D R : Type} (stage1 : Except Exc D)
    (stage2 : D → Except Exc Unit) (parseModel : D → Except Exc R)
    (stage3 : R → Except Exc Unit) (stage4 : R → Except Exc (List Warn))
    (verifiers : List (R → Except Exc (List Warn))) (e : Exc)
    (h : tryBody stage1 stage2 parseModel stage3 stage4 verifiers = .error e)
    (hne : ∀ ve, e ≠ .validation ve) :
    validate stage1 stage2 parseModel stage3 stage4 verifiers =
      .error (.validation (unexpectedWrap e)) := by
  unfold validate handle
  rw [h]
  cases e with
  | validation ve => exact absurd rfl (hne ve)
  | attributeError o a => rfl
  | other n => rfl

end ValidationPipeline

/-! ## Truncation length bound -/

theorem strRfind_lt_length {s : List Char} {c : Char} {i : Nat}
    (h : strRfind s c = some i) : i < s.length := by
  induction s generalizing i with
  | nil => exact absurd h (by simp [strRfind])
  | cons x xs ih =>
    unfold strRfind at h
    cases hr : strRfind xs c with
    | some j =>
      simp only [hr, Option.some.injEq] at h
      have := ih hr
      simp only [List.length_cons]
      omega
    | none =>
      simp only [hr] at h
      by_cases hx : x = c
      · rw [if_pos hx] at h
        simp only [Option.some.injEq] at h
        simp only [List.length_cons]
        omega
      · rw [if_neg hx] at h
        exact absurd h (by simp)

theorem lastBoundaryCode_lt_length {seg : List Char} {p : Nat}
    (h : lastBoundaryCode seg = some p) : p < seg.length := by
  unfold lastBoundaryCode at h
  have hx : p ∈ ((List.range seg.length).filter (isBoundaryCode seg)).getLast? :=
    Option.mem_def.mpr h
  obtain ⟨hne, heq⟩ := List.mem_getLast?_eq_getLast hx
  have hmem : p ∈ (List.range seg.length).filter (isBoundaryCode seg) := by
    rw [heq]
    exact List.getLast_mem hne
  have hr := (List.mem_filter.mp hmem).1
  exact List.mem_range.mp hr

/-- The truncated body never exceeds the limit (a short body is
returned whole and already fits). -/
theorem truncate_length_le (text : List Char) (max_chars : Nat) :
    (truncate_at_sentence_boundary text max_chars).length ≤ max_chars := by
  rw [truncate_eq_amendedSpec]
  unfold truncateAmendedSpec
  by_cases hlen : text.length ≤ max_chars
  · simp only [if_pos hlen]
    exact hlen
  · rw [if_neg hlen]
    cases hb : lastBoundaryCode (text.take max_chars) with
    | some p =>
      have hp := lastBoundaryCode_lt_length hb
      rw [List.length_take] at hp
      simp only [hb, List.length_take]
      omega
    | none =>
      cases hr : strRfind (text.take max_chars) ' ' with
      | some s =>
        have hs := strRfind_lt_length hr
        rw [List.length_take] at hs
        by_cases hc : 4 * max_chars < 5 * s
        · simp only [hb, hr, if_pos hc, List.length_take]
          omega
        · simp only [hb, hr, if_neg hc, List.length_take]
          omega
      | none =>
        simp only [hb, hr, List.length_take]
        omega

/-! ## Concrete fixtures

The values mirror the fixtures of the repository's own unit tests
(`tests/unit/validation`, `tests/unit/llm`): an Italian support email,
three candidate keywords, and a schema-valid triage response citing the
first of them. -/

def sampleEmail : EmailDocument :=
  { uid := "test_uid_001"
    from_addr_redacted := "[REDACTED_EMAIL]"
    subject_canonical := "Richiesta informazioni contratto".toList
    body_text_canonical :=
      "Vorrei informazioni sul contratto e sulla garanzia del prodotto.".toList
    pii_entities := [] }

def sampleCandidates : List CandidateKeyword :=
  [{ candidate_id := "hash_001", term := "contratto".toList,
     «lemma» := "contratto".toList, count := 2, source := "body",
     score := (19 : ℚ) / 20 },
   { candidate_id := "hash_002", term := "garanzia".toList,
     «lemma» := "garanzia".toList, count := 1, source := "body",
     score := (17 : ℚ) / 20 },
   { candidate_id := "hash_003", term := "informazioni".toList,
     «lemma» := "informazione".toList, count := 1, source := "body",
     score := (3 : ℚ) / 4 }]

def sampleRequest : TriageRequest :=
  { email := sampleEmail
    candidate_keywords := sampleCandidates
    dictionary_version := 42 }

def sampleKeyword : KeywordInText :=
  { candidateid := "hash_001", «lemma» := "contratto".toList, count := 2, spans := none }

def sampleEvidence : EvidenceItem :=
  { quote := "informazioni sul contratto".toList, span := none }

def sampleTopic : TopicResult :=
  { labelid := .CONTRATTO, confidence := (9 : ℚ) / 10,
    keywordsintext := [sampleKeyword], evidence := [sampleEvidence] }

/-- A schema-valid response whose every cited candidate id is drawn from
the request's candidate set and whose evidence quote occurs verbatim in
the body. -/
def sampleResponse : EmailTriageResponse :=
  { dictionaryversion := 42,
    sentiment := { value := .neutral, confidence := (4 : ℚ) / 5 },
    priority := { value := .medium, confidence := (7 : ℚ) / 10,
                  signals := ["keyword_presence"] },
    topics := [sampleTopic] }

/-- `sampleResponse` with a dictionary version different from the
request's. -/
def mismatchResponse : EmailTriageResponse :=
  { sampleResponse with dictionaryversion := 999 }

/-- A keyword citing a candidate id absent from the request. -/
def hallucinatedKeyword : KeywordInText :=
  { candidateid := "hash_999", «lemma» := "inventato".toList, count := 1, spans := none }

/-- `sampleResponse` citing a candidate id absent from the request. -/
def hallucinatedResponse : EmailTriageResponse :=
  { sampleResponse with
    topics := [{ sampleTopic with keywordsintext := [hallucinatedKeyword] }] }

def c3quote : List Char := "This quote does not appear".toList

/-- `sampleResponse` with an evidence quote that does not occur in the
body. -/
def badQuoteResponse : EmailTriageResponse :=
  { sampleResponse with
    topics := [{ sampleTopic with evidence := [{ quote := c3quote, span := none }] }] }

/-- The candidate ids a response cites
(`topics[*].keywordsintext[*].candidateid`, the declared field). -/
def citedCandidateids (response : EmailTriageResponse) : List String :=
  (response.topics.flatMap (fun t => t.keywordsintext)).map (fun kw => kw.candidateid)

/-- The request's candidate-id set
(`[c.candidate_id for c in request.candidate_keywords]`). -/
def requestCandidateids (request : TriageRequest) : List String :=
  request.candidate_keywords.map (fun c => c.candidate_id)

/-- A PII entity fully inside the first 50 characters. -/
def piiEmailEntity : PiiEntity :=
  { type := "EMAIL", original_hash := "abc123", redacted := "[EMAIL]",
    span_start := 10, span_end := 25, confidence := (19 : ℚ) / 20,
    detection_method := "regex" }

/-- A second PII entity fully inside the first 50 characters. -/
def piiNameEntity : PiiEntity :=
  { type := "NAME", original_hash := "def456", redacted := "[NAME]",
    span_start := 30, span_end := 45, confidence := (9 : ℚ) / 10,
    detection_method := "ner" }

/-- A body of 23 characters: 16 letters, a space at index 16, 6 more
letters.  With limit 20 the segment's last space sits exactly at
`0.8 * 20`. -/
def c6text : List Char := "aaaaaaaaaaaaaaaa bbbbbb".toList

/-- The `BusinessRuleViolation` payload the engine fixtures feed back as
a per-attempt validation failure. -/
def c7violation : ValidationErr :=
  { className := "BusinessRuleViolation"
    message := "Keyword candidateid not found in input candidates"
    details := [("rule_name", DetailVal.str "candidateid_exists_in_input")] }

/-- With `MAX_RETRIES = 1` and two fallback models, generation indices 0
(standard), 1 and 2 (shrink) fail validation; index 3 — the first
fallback attempt — raises `LLMModelNotAvailableError`; index 4 — the
second fallback model, were it ever tried — would succeed. -/
def c7gen : Nat → RetryEngine.AttemptOutcome := fun i =>
  if i = 3 then .pyError (.modelNotAvailable "fallback-model-1")
  else if i = 4 then .success sampleResponse []
  else .validationError c7violation

/-- A generator whose every attempt succeeds immediately. -/
def c8gen : Nat → RetryEngine.AttemptOutcome := fun _ => .success sampleResponse []

def c10ve : ValidationErr :=
  { className := "ValidationError", message := "boom", details := [] }

/-! ## The claims -/

/-- C1: the claim says stage 3's candidate check passes when every cited
candidate id is in the request's set and otherwise fails with a
`BusinessRuleViolation` named `candidateid_exists_in_input`.  In the
code, `_validate_candidateids` reads `keyword.candidate_id` while the
`KeywordInText` model declares `candidateid`, so the check raises
`AttributeError` on the first keyword — both when every cited id is a
member of the request's set (first two conjuncts) and when one is not
(last two conjuncts): it never passes and never raises the claimed
violation, so the anti-hallucination invariant is not enforced. -/
theorem C1_candidateid_check_attribute_error :
    ((citedCandidateids sampleResponse).all
      ((requestCandidateids sampleRequest).contains ·)) = true ∧
    Stage3BusinessRules.validate_candidateids sampleResponse sampleRequest =
      .error (.attributeError "KeywordInText" "candidate_id") ∧
    ((citedCandidateids hallucinatedResponse).all
      ((requestCandidateids sampleRequest).contains ·)) = false ∧
    Stage3BusinessRules.validate_candidateids hallucinatedResponse sampleRequest =
      .error (.attributeError "KeywordInText" "candidate_id") :=
  ⟨rfl, rfl, rfl, rfl⟩

/-- C2: the claim says stage 3 raises the `dictionary_version_match`
violation exactly on a version mismatch and passes on equality.  In the
code, `_validate_dictionary_version` reads `response.dictionary_version`
while the model declares `dictionaryversion`, so the rule raises
`AttributeError` on every input — equal versions (first two conjuncts)
and differing versions (next two) alike — and `Stage3BusinessRules.validate`
can never succeed (last conjunct). -/
theorem C2_dictionary_version_rule_attribute_error :
    sampleResponse.dictionaryversion = sampleRequest.dictionary_version ∧
    Stage3BusinessRules.validate_dictionary_version sampleResponse sampleRequest =
      .error (.attributeError "EmailTriageResponse" "dictionary_version") ∧
    mismatchResponse.dictionaryversion ≠ sampleRequest.dictionary_version ∧
    Stage3BusinessRules.validate_dictionary_version mismatchResponse sampleRequest =
      .error (.attributeError "EmailTriageResponse" "dictionary_version") ∧
    (∀ (response : EmailTriageResponse) (request : TriageRequest),
      Stage3BusinessRules.validate response request =
        .error (.attributeError "EmailTriageResponse" "dictionary_version")) :=
  ⟨rfl, rfl, by decide, rfl, fun _ _ => rfl⟩

/-- C3: the claim says a quote absent from the body yields an
`evidence quote not found` warning while the pipeline still returns
success.  `badQuoteResponse`'s quote is indeed absent (first conjunct),
but `EvidencePresenceVerifier.verify` reads `request.email_document`
while the model declares `email`, so it raises `AttributeError` before
examining any quote (second conjunct); and the full pipeline run from
the parsed state fails earlier still — stage 3's `AttributeError` is
wrapped into a hard `ValidationError` — so no warning-carrying success
is ever returned (third conjunct). -/
theorem C3_evidence_warning_never_produced :
    pyInStr (pyLower (pyStrip c3quote)) (pyLower sampleEmail.body_text_canonical) = false ∧
    (∀ (response : EmailTriageResponse) (request : TriageRequest),
      EvidencePresenceVerifier.verify response request =
        .error (.attributeError "TriageRequest" "email_document")) ∧
    ValidationPipeline.validateFromParsed sampleRequest badQuoteResponse =
      .error (.validation (ValidationPipeline.unexpectedWrap
        (.attributeError "EmailTriageResponse" "dictionary_version"))) :=
  ⟨by decide, fun _ _ => rfl, rfl⟩

/-- C4: when every attempt fails validation the engine raises
`RetryExhausted` carrying the original request, metadata with exactly
`MAX_RETRIES + 2 + max(|fallbackModels|, 1)` total attempts (standard:
`MAX_RETRIES`, shrink: 2, fallback: one per configured model, or one
re-raise when none are configured), the full strategy ladder, one
recorded failure per attempt, and the last `ValidationError` (the one of
the final generation, index `MAX_RETRIES + 1 + |fallbackModels|`). -/
theorem C4_retry_exhaustion_count (s : RetryEngine.EngineSettings)
    (es : Nat → ValidationErr) (request : TriageRequest) :
    ∃ m : RetryEngine.RetryMetadata,
      RetryEngine.execute_with_retry s (fun i => .validationError (es i)) request =
        .exhausted request m (es (s.MAX_RETRIES + 1 + s.FALLBACK_MODELS.length)) ∧
      m.total_attempts = s.MAX_RETRIES + 2 + max s.FALLBACK_MODELS.length 1 ∧
      m.strategies_used = ["standard", "shrink", "fallback"] ∧
      m.final_strategy = "fallback" ∧
      m.validation_failures.length = m.total_attempts :=
  RetryEngine.execute_allVE s es request

/-- C5: the claim says the PII-span fixup keeps an entity whose span end
is within the truncated length.  In the code, the guard
`not hasattr(entity, 'span')` skips an entity without a `span`
attribute, and `PiiEntity` declares `span_start`/`span_end` but no
`span`, so every entity is silently dropped: the two fixture entities
lie fully inside the first 50 characters (middle conjuncts) yet the
function returns `[]` (first conjunct) — indeed it returns `[]` on every
input (last conjunct). -/
theorem C5_pii_fixup_drops_in_bounds_entities :
    adjust_pii_spans_after_truncation [piiEmailEntity, piiNameEntity] 50
      (List.replicate 100 'x') (List.replicate 50 'x') = [] ∧
    piiEmailEntity.span_end ≤ 50 ∧
    piiNameEntity.span_end ≤ 50 ∧
    (∀ (pii_entities : List PiiEntity) (truncated_length : Nat)
       (original_text truncated_text : List Char),
      adjust_pii_spans_after_truncation pii_entities truncated_length
        original_text truncated_text = []) :=
  ⟨adjust_pii_spans_always_nil _ _ _ _, by decide, by decide,
   adjust_pii_spans_always_nil⟩

/-- C6 (amended): short text is kept whole, and otherwise the cut falls
immediately after the last sentence boundary of the first `max_chars`
characters — where a final punctuation character of the segment counts
as a boundary even when the full text continues without whitespace —
else at the segment's last `' '` (space only, not other whitespace)
provided its index is strictly greater than `0.8 * max_chars`, else hard
at `max_chars`; the output never exceeds `max_chars` characters.  Stated
as equality with the declarative `truncateAmendedSpec` plus the length
bound. -/
theorem C6_truncation_matches_amended_description (text : List Char) (max_chars : Nat) :
    truncate_at_sentence_boundary text max_chars = truncateAmendedSpec text max_chars ∧
    (truncate_at_sentence_boundary text max_chars).length ≤ max_chars :=
  ⟨truncate_eq_amendedSpec text max_chars, truncate_length_le text max_chars⟩

/-- C6 counterexample to the claim as worded: on a 23-character body
with limit 20 whose only space sits at index 16 = 0.8 * 20, the claim's
`≥ 0.8 L` whitespace rule cuts at the space, while the code's strict
`>` comparison hard-cuts at 20. -/
theorem C6_claim_counterexample :
    truncate_at_sentence_boundary c6text 20 ≠ truncateClaimSpec c6text 20 ∧
    truncateClaimSpec c6text 20 = "aaaaaaaaaaaaaaaa".toList ∧
    truncate_at_sentence_boundary c6text 20 = "aaaaaaaaaaaaaaaa bbb".toList :=
  ⟨by decide, by decide, by decide⟩

/-- C7 (amended): the engine's attempt loop catches only
`ValidationError`; any other exception — a gateway connection error or
`LLMModelNotAvailableError`, in whatever state it strikes, the fallback
state included — propagates out of `execute_with_retry` unchanged and is
not recorded as a validation failure.  No fallback entry is skipped: the
engine never cycles past a `ModelNotAvailable` fallback model. -/
theorem C7_non_validation_rethrown (s : RetryEngine.EngineSettings)
    (gen : Nat → RetryEngine.AttemptOutcome) (es : Nat → ValidationErr)
    (request : TriageRequest) (k : Nat) (e : RetryEngine.GatewayExc)
    (hVE : ∀ i, i < k → gen i = .validationError (es i))
    (hk : gen k = .pyError e)
    (hbound : k < s.MAX_RETRIES + 2 + s.FALLBACK_MODELS.length) :
    RetryEngine.execute_with_retry s gen request = .uncaught e :=
  RetryEngine.execute_pyError s gen es request k e hVE hk hbound

/-- C7 witness: with `MAX_RETRIES = 1`, two fallback models and
`c7gen`, the fourth generation (the first fallback attempt, index 3)
raises `LLMModelNotAvailableError` and the engine rethrows it. -/
theorem C7_non_validation_rethrown_witness :
    RetryEngine.execute_with_retry ⟨1, ["fallback-model-1", "fallback-model-2"]⟩
        c7gen sampleRequest = .uncaught (.modelNotAvailable "fallback-model-1") :=
  C7_non_validation_rethrown ⟨1, ["fallback-model-1", "fallback-model-2"]⟩ c7gen
    (fun _ => c7violation) sampleRequest 3 (.modelNotAvailable "fallback-model-1")
    (by decide) (by decide) (by decide)

/-- C7 counterexample to the claim as worded: `ModelNotAvailable` on the
first fallback model is not skipped — the engine rethrows it — even
though the next fallback model (generation index 4) would have
succeeded, so no cycling to the next entry takes place. -/
theorem C7_claim_counterexample :
    RetryEngine.execute_with_retry ⟨1, ["fallback-model-1", "fallback-model-2"]⟩
        c7gen sampleRequest = .uncaught (.modelNotAvailable "fallback-model-1") ∧
    c7gen 4 = .success sampleResponse [] :=
  ⟨rfl, rfl⟩

/-- C8 (amended): provided `MAX_RETRIES ≥ 1` (the deployed default is
3), every metadata the engine produces — on success and on exhaustion —
has `strategies_used` a non-empty duplicate-free prefix of
`[standard, shrink, fallback]`, `final_strategy` a member of
`strategies_used`, and at least as many total attempts as strategies
used.  With `MAX_RETRIES = 0` the attempt-count inequality fails, since
a strategy's name is appended on entry before any of its attempts
runs. -/
theorem C8_metadata_invariant (s : RetryEngine.EngineSettings)
    (gen : Nat → RetryEngine.AttemptOutcome) (request : TriageRequest)
    (hMR : 1 ≤ s.MAX_RETRIES) :
    RetryEngine.ResultMetaInvariant (RetryEngine.execute_with_retry s gen request) :=
  RetryEngine.execute_metaInvariant s gen request hMR

/-- C8 witness: the invariant holds of the concrete run with
`MAX_RETRIES = 3`, no fallback models, and an immediately succeeding
generator. -/
theorem C8_metadata_invariant_witness :
    1 ≤ (3 : Nat) ∧
    RetryEngine.ResultMetaInvariant
      (RetryEngine.execute_with_retry ⟨3, []⟩ c8gen sampleRequest) :=
  ⟨by decide, C8_metadata_invariant ⟨3, []⟩ c8gen sampleRequest (by decide)⟩

/-- C8 counterexample to the claim as worded: with `MAX_RETRIES = 0` the
standard strategy is entered (and recorded) with a zero attempt budget,
so the first shrink attempt succeeds with `total_attempts = 1` but two
strategies used — `totalAttempts ≥ len(strategiesUsed)` fails. -/
theorem C8_claim_counterexample :
    RetryEngine.execute_with_retry ⟨0, []⟩ c8gen sampleRequest =
      .ok sampleResponse ⟨1, ["standard", "shrink"], "shrink", []⟩ [] ∧
    (⟨1, ["standard", "shrink"], "shrink", []⟩ : RetryEngine.RetryMetadata).total_attempts <
      (⟨1, ["standard", "shrink"], "shrink", []⟩ : RetryEngine.RetryMetadata).strategies_used.length :=
  ⟨rfl, by decide⟩

/-- C9: `save_to_dlq` pushes exactly one entry — whose `request_uid` is
`exc.request.email.uid` and which carries the request, the attempt
count, the strategies, the failures and the last error — at the head of
the list and trims to the newest 10000, so the DLQ length is
`min(previous + 1, 10000)` and never exceeds 10000; and
`triage_email_task` calls it exactly once on `RetryExhausted`, leaving
the DLQ untouched on success or on any other exception. -/
theorem C9_dlq_push_and_trim (dlq : List TriageRepository.DLQEntry)
    (exc : TriageRepository.RetryExhaustedExc) :
    TriageRepository.save_to_dlq dlq exc =
      TriageRepository.mkDLQEntry exc :: dlq.take 9999 ∧
    (TriageRepository.mkDLQEntry exc).request_uid = exc.request.email.uid ∧
    (TriageRepository.save_to_dlq dlq exc).length = min (dlq.length + 1) 10000 ∧
    (TriageRepository.save_to_dlq dlq exc).length ≤ 10000 ∧
    (∀ (request : TriageRequest) (meta : RetryEngine.RetryMetadata)
       (last_error : ValidationErr),
      triage_email_task dlq (.exhausted request meta last_error) =
        (TriageRepository.save_to_dlq dlq ⟨request, meta, last_error⟩,
         .failed ⟨request, meta, last_error⟩)) ∧
    (∀ (response : EmailTriageResponse) (meta : RetryEngine.RetryMetadata)
       (warnings : List Warn),
      (triage_email_task dlq (.ok response meta warnings)).1 = dlq) ∧
    (∀ (e : RetryEngine.GatewayExc),
      (triage_email_task dlq (.uncaught e)).1 = dlq) := by
  have hsave : TriageRepository.save_to_dlq dlq exc =
      TriageRepository.mkDLQEntry exc :: dlq.take 9999 := by
    unfold TriageRepository.save_to_dlq TriageRepository.redisLtrim
      TriageRepository.redisLpush
    rw [Nat.sub_zero, List.drop_zero, List.take_succ_cons]
  refine ⟨hsave, rfl, ?_, ?_, fun _ _ _ => rfl, fun _ _ _ => rfl, fun _ => rfl⟩
  · rw [hsave]
    simp only [List.length_cons, List.length_take]
    omega
  · rw [hsave]
    simp only [List.length_cons, List.length_take]
    omega

/-- C10: the validation pipeline raises only `ValidationError` — every
error it returns is one (first conjunct); an unexpected exception from
any stage, the warnings-only stage 4 and the verifiers included, is
wrapped into a hard `ValidationError` recording the original exception's
type name (second conjunct); and the retry engine treats such failures
as retryable: a run whose every attempt fails validation never rethrows
a gateway exception to the caller (third conjunct). -/
theorem C10_pipeline_raises_only_validation_error {D R : Type}
    (stage1 : Except Exc D) (stage2 : D → Except Exc Unit)
    (parseModel : D → Except Exc R) (stage3 : R → Except Exc Unit)
    (stage4 : R → Except Exc (List Warn))
    (verifiers : List (R → Except Exc (List Warn))) :
    (∀ e, ValidationPipeline.validate stage1 stage2 parseModel stage3 stage4 verifiers =
        .error e → ∃ ve, e = .validation ve) ∧
    (∀ e, ValidationPipeline.tryBody stage1 stage2 parseModel stage3 stage4 verifiers =
        .error e → (∀ ve, e ≠ .validation ve) →
      ValidationPipeline.validate stage1 stage2 parseModel stage3 stage4 verifiers =
        .error (.validation (ValidationPipeline.unexpectedWrap e))) ∧
    (∀ (s : RetryEngine.EngineSettings) (es : Nat → ValidationErr)
       (request : TriageRequest) (e : RetryEngine.GatewayExc),
      RetryEngine.execute_with_retry s (fun i => .validationError (es i)) request ≠
        .uncaught e) :=
  ⟨fun e h => ValidationPipeline.validate_error_validation
      stage1 stage2 parseModel stage3 stage4 verifiers e h,
   fun e h hne => ValidationPipeline.validate_wraps_unexpected
      stage1 stage2 parseModel stage3 stage4 verifiers e h hne,
   fun s es request e => RetryEngine.execute_allVE_ne_uncaught s es request e⟩

/-- C10 witness: a stage raising a bare `RuntimeError` comes back as the
wrapped hard `ValidationError`, and a concrete all-validation-failure
run rethrows no gateway exception. -/
theorem C10_pipeline_wrap_witness :
    ValidationPipeline.validate (D := Unit) (R := Unit)
        (Except.error (Exc.other "RuntimeError")) (fun _ => pure ())
        (fun _ => pure ()) (fun _ => pure ()) (fun _ => pure []) [] =
      .error (.validation (ValidationPipeline.unexpectedWrap (Exc.other "RuntimeError"))) ∧
    RetryEngine.execute_with_retry ⟨0, []⟩ (fun _ => .validationError c10ve)
        sampleRequest ≠ .uncaught (.connection "econnrefused") :=
  ⟨(C10_pipeline_raises_only_validation_error (D := Unit) (R := Unit)
      (Except.error (Exc.other "RuntimeError")) (fun _ => pure ())
      (fun _ => pure ()) (fun _ => pure ()) (fun _ => pure []) []).2.1
      (Exc.other "RuntimeError") rfl (fun _ h => Exc.noConfusion h),
   (C10_pipeline_raises_only_validation_error (D := Unit) (R := Unit)
      (Except.error (Exc.other "RuntimeError")) (fun _ => pure ())
      (fun _ => pure ()) (fun _ => pure ()) (fun _ => pure []) []).2.2
      ⟨0, []⟩ (fun _ => c10ve) sampleRequest (.connection "econnrefused")⟩

end InferenceLayer

